import Mathlib

/-!
# Lead Score Genius — verification of the specification against the source

Shallow embedding of the core logic of the `lead-score-genius` repository:

* `src/lib/ai/scoring.ts` — weight selection, score sanitisation, final-score
  recomputation (`selectWeights`, `clampScore`, `computeFinalScore`,
  `interpretScore`, `computeDeterministicReviewScore`, `scoreLeadWithModel`);
* `src/lib/scoreLeads.ts` — per-lead orchestration with partial-failure
  isolation and the in-flight review-promise dedup cache;
* `src/lib/jobQueue.ts` and the durable job worker — the job state machine
  (status/processed/total transitions, stale-job reclaim CAS);
* `src/lib/enrich/maps.ts` — the multi-strategy review resolver
  (`getMapsSnapshot`, `sanitizeSnapshot`, `tokenizeQuery`,
  `deriveIdentityTokens`, `fetchViaJina`) and the `MapsLookupLimiter`
  rate limiter / backoff scheduler.

JavaScript numbers are modelled as `ℚ` (integers as `ℤ`/`ℕ`), `null`/missing
values as `Option`, async results as oracle ("world") records supplying what
each network fetch would return, and module-level mutable state (caches,
limiter state, job rows) as explicitly threaded state.
-/

namespace LeadScore

/-! ## JS-style string helpers -/

/-- `pat` is a prefix of `s` (on character lists). -/
def charsHasPre : List Char → List Char → Bool
  | [], _ => true
  | _ :: _, [] => false
  | a :: ps, b :: ss => a == b && charsHasPre ps ss

/-- `pat` occurs somewhere in `s` (on character lists). -/
def charsContains : List Char → List Char → Bool
  | [], pat => pat.isEmpty
  | c :: rest, pat => charsHasPre pat (c :: rest) || charsContains rest pat

/-- JS `String.prototype.includes`: `pat` occurs as a substring of `s`. -/
def strIncludes (s pat : String) : Bool :=
  charsContains s.data pat.data

/-- ASCII lowercasing, character-wise (`String.toLower`; JS `toLowerCase`
restricted to ASCII, which is all the source's token logic relies on). -/
def lowerStr (s : String) : String :=
  String.mk (s.data.map Char.toLower)

/-- Strip leading and trailing whitespace (`String.trim` / JS `trim`). -/
def trimStr (s : String) : String :=
  String.mk (((s.data.dropWhile Char.isWhitespace).reverse.dropWhile
    Char.isWhitespace).reverse)

/-- Split a character list on single spaces (`split(" ")`): consecutive
separators produce empty pieces, exactly like `String.splitOn " "`. -/
def splitOnSpace : List Char → List (List Char)
  | [] => [[]]
  | c :: rest =>
    match splitOnSpace rest with
    | [] => [[]]
    | g :: gs => if c == ' ' then [] :: g :: gs else (c :: g) :: gs

/-- Replace every occurrence of `pat` (non-empty) by `sub`, scanning left to
right; `fuel` bounds the recursion (callers pass the string length). -/
def replaceAllFuel (pat sub : List Char) : ℕ → List Char → List Char
  | 0, s => s
  | _ + 1, [] => []
  | fuel + 1, c :: rest =>
      if charsHasPre pat (c :: rest) && !pat.isEmpty then
        sub ++ replaceAllFuel pat sub fuel (List.drop (pat.length - 1) rest)
      else c :: replaceAllFuel pat sub fuel rest

/-- `String.replace` (all occurrences, left to right). -/
def replaceAll (s pat sub : String) : String :=
  String.mk (replaceAllFuel pat.data sub.data s.data.length s.data)

/-- Substring containment as a proposition: `sub` occurs inside `s`. -/
def containsStr (s sub : String) : Prop :=
  ∃ p q, s = p ++ sub ++ q

/-! ## Numeric helpers (JS `Math.round`, `toFixed`)

`Math.round` rounds half towards `+∞`, which is Mathlib's `round`
(`round q = ⌊q + 1/2⌋`).  `Number(x.toFixed(d))` rounds to `d` decimals with
ties to the larger value, i.e. `round (x * 10^d) / 10^d`. -/

/-- `Number(x.toFixed(2))`: round to two decimal places. -/
def roundTo2 (q : ℚ) : ℚ := (round (q * 100) : ℤ) / 100

/-- `Number(x.toFixed(1))`: round to one decimal place. -/
def roundTo1 (q : ℚ) : ℚ := (round (q * 10) : ℤ) / 10

/-! ## Data model (src/lib/types.ts) -/

/-- `LeadScoreResponse.interpretation`: the union type
`"Cold Dead" | "Borderline" | "Qualified" | "Hot"` (the spec spells the first
member `ColdDead`). -/
inductive Interp where
  | hot
  | qualified
  | borderline
  | coldDead
deriving DecidableEq, Repr

/-- `WeightSet` (src/lib/ai/scoring.ts). -/
structure WeightSet where
  website_activity : ℚ
  reviews : ℚ
  years_in_business : ℚ
  revenue_proxies : ℚ
  industry_fit : ℚ
deriving DecidableEq, Repr

/-- `ReviewSnapshot` (src/lib/types.ts); `method` is kept mandatory as in
`maps.ts` (`ReviewSnapshot & { method: string }`). -/
structure ReviewSnapshot where
  averageRating : Option ℚ
  reviewCount : Option ℤ
  sourceUrl : Option String
  method : String
deriving DecidableEq, Repr

/-- The single field of `WebsiteSignals` that scoring reads
(`website.finalScore`, an integer 0..10). -/
structure WebsiteSignals where
  finalScore : ℤ
deriving DecidableEq, Repr

/-- The fields of `CleanLead` (src/lib/ai/clean.ts) used by scoring and by the
orchestrator's lookup-key derivation.  `company` is a plain `string` in the
source; the other fields are optional there. -/
structure CleanLead where
  lead_id : String
  company : String
  industry : Option String
  website : Option String
  location : Option String
  maps_url : Option String
deriving DecidableEq, Repr

/-- `LeadInput` (src/lib/types.ts), the fields the orchestrator reads. -/
structure LeadInput where
  lead_id : String
  company : String
  industry : Option String
  location : Option String
  website : Option String
  notes : Option String
deriving DecidableEq, Repr

/-- The `scores` object of the sanitized `LeadScoreResponse`; the nested
`reviews` record is flattened into `reviews_*` fields. -/
structure ScoresObj where
  website_activity : ℤ
  reviews_average_rating : Option ℚ
  reviews_review_count : Option ℤ
  reviews_score : ℤ
  years_in_business : ℤ
  revenue_proxies : ℤ
  industry_fit : ℤ
deriving DecidableEq, Repr

/-- The sanitized `LeadScoreResponse` (src/lib/types.ts). -/
structure LeadScoreResponse where
  lead_id : String
  industry : String
  weights_applied : WeightSet
  scores : ScoresObj
  reasoning : String
  final_score : ℚ
  interp : Interp
deriving DecidableEq, Repr

/-- The optional factor scores of the raw collaborator reply
(`raw.scores?.…` in `scoreLeadWithModel`); every field may be missing. -/
structure RawScores where
  website_activity : Option ℚ
  reviews_score : Option ℚ
  years_in_business : Option ℚ
  revenue_proxies : Option ℚ
  industry_fit : Option ℚ
deriving DecidableEq, Repr

/-- The raw scoring-collaborator reply as read by `scoreLeadWithModel`.
`reasoning` is modelled as an already-string value (the source's
`formatReasoning` also JSON-stringifies arrays and objects; only the
string/null cases are reachable in this model and the claims do not depend
on the others). -/
structure RawScoreResponse where
  lead_id : Option String
  industry : Option String
  scores : Option RawScores
  reasoning : Option String
  final_score : Option ℚ
deriving DecidableEq, Repr

/-! ## src/lib/ai/scoring.ts -/

/-- `INDUSTRY_WEIGHTS.real_estate`. -/
def realEstateWeights : WeightSet :=
  { website_activity := 3/10, reviews := 3/10, years_in_business := 15/100
    revenue_proxies := 15/100, industry_fit := 1/10 }

/-- `INDUSTRY_WEIGHTS.marketing_agency`. -/
def marketingAgencyWeights : WeightSet :=
  { website_activity := 35/100, reviews := 2/10, years_in_business := 15/100
    revenue_proxies := 25/100, industry_fit := 5/100 }

/-- `INDUSTRY_WEIGHTS.local_services`. -/
def localServicesWeights : WeightSet :=
  { website_activity := 2/10, reviews := 35/100, years_in_business := 25/100
    revenue_proxies := 15/100, industry_fit := 5/100 }

/-- `INDUSTRY_WEIGHTS.financial_services`. -/
def financialServicesWeights : WeightSet :=
  { website_activity := 25/100, reviews := 3/10, years_in_business := 3/10
    revenue_proxies := 1/10, industry_fit := 5/100 }

/-- `INDUSTRY_WEIGHTS.default`. -/
def defaultWeights : WeightSet :=
  { website_activity := 25/100, reviews := 25/100, years_in_business := 2/10
    revenue_proxies := 2/10, industry_fit := 1/10 }

/-- `selectWeights(industry?)`: substring matching on the trimmed, lowercased
industry string.  The JS falsiness test `!industry` also catches the empty
string. -/
def selectWeights (industry : Option String) : WeightSet :=
  match industry with
  | none => defaultWeights
  | some ind =>
    if ind = "" then defaultWeights
    else
      let normalized := lowerStr (trimStr ind)
      if strIncludes normalized "real estate" then realEstateWeights
      else if strIncludes normalized "agency" || strIncludes normalized "marketing" then
        marketingAgencyWeights
      else if strIncludes normalized "plumb" || strIncludes normalized "repair"
          || strIncludes normalized "service" then localServicesWeights
      else if strIncludes normalized "financial" || strIncludes normalized "insurance"
          || strIncludes normalized "advis" then financialServicesWeights
      else defaultWeights

/-- `clampScore(value)`: `Math.min(Math.max(Math.round(value), 0), 10)`
(the `Number.isFinite` guard cannot fire over `ℚ`). -/
def clampScore (value : ℚ) : ℤ :=
  min (max (round value) 0) 10

/-- `formatReasoning(value)` restricted to the string/null cases (see
`RawScoreResponse.reasoning`). -/
def formatReasoning (value : Option String) : String :=
  match value with
  | some s => s
  | none => "No reasoning returned"

/-- `computeDeterministicReviewScore(reviews)`. -/
def computeDeterministicReviewScore (reviews : ReviewSnapshot) : ℤ :=
  let rating := reviews.averageRating.getD 0
  let count := reviews.reviewCount.getD 0
  let ratingScore : ℤ := if rating ≥ 4 then 10 else if rating ≥ 3 then 5 else 0
  let countScore : ℤ := if count ≥ 50 then 10 else if count ≥ 10 then 5
    else if count > 0 then 2 else 0
  clampScore (((ratingScore + countScore : ℤ) : ℚ) / 2)

/-- `computeFinalScore(scores, weights)`: the weighted sum of the five factor
scores, rounded to two decimals. -/
def computeFinalScore (scores : ScoresObj) (weights : WeightSet) : ℚ :=
  roundTo2 (scores.website_activity * weights.website_activity
    + scores.reviews_score * weights.reviews
    + scores.years_in_business * weights.years_in_business
    + scores.revenue_proxies * weights.revenue_proxies
    + scores.industry_fit * weights.industry_fit)

/-- `interpretScore(score)`. -/
def interpretScore (score : ℚ) : Interp :=
  if score ≥ 8 then .hot
  else if score ≥ 6 then .qualified
  else if score ≥ 4 then .borderline
  else .coldDead

/-- The pure core of `scoreLeadWithModel(lead, reviews, website)`: everything
after the collaborator call, as a function of the raw reply `raw`.  Mirrors
src/lib/ai/scoring.ts lines 179-216: sanitise the sub-scores, force the
deterministic review score, recompute `final_score` and `interpretation`,
and append the `[System]` notes. -/
def sanitizeScoreResponse (lead : CleanLead) (reviews : ReviewSnapshot)
    (website : Option WebsiteSignals) (raw : RawScoreResponse) : LeadScoreResponse :=
  let weights := selectWeights lead.industry
  let deterministicReviewScore := computeDeterministicReviewScore reviews
  let modelReviewScore :=
    clampScore ((raw.scores.bind (·.reviews_score)).getD (deterministicReviewScore : ℚ))
  let scores : ScoresObj :=
    { website_activity :=
        clampScore ((raw.scores.bind (·.website_activity)).getD
          (((website.map (·.finalScore)).getD 0 : ℤ) : ℚ))
      reviews_average_rating := reviews.averageRating
      reviews_review_count := reviews.reviewCount
      reviews_score := deterministicReviewScore
      years_in_business := clampScore ((raw.scores.bind (·.years_in_business)).getD 0)
      revenue_proxies := clampScore ((raw.scores.bind (·.revenue_proxies)).getD 0)
      industry_fit := clampScore ((raw.scores.bind (·.industry_fit)).getD 0) }
  let finalScore := computeFinalScore scores weights
  let reasoning0 := formatReasoning raw.reasoning
  let reasoning1 :=
    if modelReviewScore ≠ deterministicReviewScore then
      reasoning0 ++ "\n[System] Reviews score adjusted to "
        ++ toString deterministicReviewScore ++ " (model proposed "
        ++ toString modelReviewScore ++ ")."
    else reasoning0
  let reasoning2 :=
    if |raw.final_score.getD 0 - finalScore| > 1/20 then
      reasoning1 ++ "\n[System] Final score recomputed to "
        ++ toString finalScore ++ " based on weighted sum."
    else reasoning1
  { lead_id := raw.lead_id.getD lead.lead_id
    industry := raw.industry.getD (lead.industry.getD "default")
    weights_applied := weights
    scores := scores
    reasoning := reasoning2
    final_score := finalScore
    interp := interpretScore finalScore }

/-! ### C1 -/

/-- **C1.** For every lead scored via the model path, the returned result's
`final_score` equals the weighted sum of its five sanitized sub-scores under
the server-selected industry weight set (rounded to two decimals), the
interpretation is derived from that recomputed score, the weight set is the
server-selected one, and the collaborator-supplied `final_score` field is
never used as the result: replacing it by any value leaves the returned
`final_score` (and interpretation) unchanged. -/
theorem c1_final_score_recomputed (lead : CleanLead) (reviews : ReviewSnapshot)
    (website : Option WebsiteSignals) (raw : RawScoreResponse) :
    (sanitizeScoreResponse lead reviews website raw).final_score
        = computeFinalScore (sanitizeScoreResponse lead reviews website raw).scores
            (selectWeights lead.industry)
      ∧ (sanitizeScoreResponse lead reviews website raw).interp
        = interpretScore (sanitizeScoreResponse lead reviews website raw).final_score
      ∧ (sanitizeScoreResponse lead reviews website raw).weights_applied
        = selectWeights lead.industry
      ∧ ∀ v : Option ℚ,
          (sanitizeScoreResponse lead reviews website
              { raw with final_score := v }).final_score
            = (sanitizeScoreResponse lead reviews website raw).final_score := by
  refine ⟨rfl, rfl, rfl, fun v => rfl⟩

/-! ## src/lib/scoreLeads.ts — per-lead processing with failure isolation

`processLead` (src/lib/scoreLeads.ts lines 247-511) runs clean → enrich →
score for one lead inside a `try`/`catch`; the `catch` branch synthesizes a
fallback zero-score result.  The outcome of the fallible stages (network,
collaborator) is modelled by an oracle value per lead: `success` carries what
the pipeline produced, `failure` carries the thrown error message together
with how far the pipeline had got (the cleaned lead if cleaning succeeded,
and the review snapshot / website signals visible to the catch block).
The worker pool interleaves leads only at `await` points and the catch logic
is per-lead, so the batch is modelled as a map over the per-lead outcomes;
completion order does not affect any per-lead result. -/

inductive LeadOutcome where
  | success (cleaned : CleanLead) (reviews : ReviewSnapshot)
      (website : Option WebsiteSignals) (score : LeadScoreResponse)
  | failure (message : String) (cleaned : Option CleanLead)
      (reviews : ReviewSnapshot) (website : Option WebsiteSignals)
deriving DecidableEq, Repr

/-- One element of the orchestrator's result list
(`{ lead, score, enriched: { cleaned, reviews, website } }`). -/
structure LeadResult where
  lead : LeadInput
  score : LeadScoreResponse
  cleaned : CleanLead
  reviews : ReviewSnapshot
  website : Option WebsiteSignals
deriving DecidableEq, Repr

/-- The `safeCleaned` fallback of the catch branch: the cleaned lead if
cleaning had succeeded, else a record rebuilt from the raw lead. -/
def safeCleaned (lead : LeadInput) (cleaned : Option CleanLead) : CleanLead :=
  cleaned.getD
    { lead_id := lead.lead_id, company := lead.company, industry := lead.industry
      website := lead.website, location := lead.location, maps_url := none }

/-- The `fallbackScore` object built in the catch branch of `processLead`
(src/lib/scoreLeads.ts lines 447-468). -/
def fallbackScore (lead : LeadInput) (cleaned : Option CleanLead)
    (reviews : ReviewSnapshot) (message : String) : LeadScoreResponse :=
  let weights := selectWeights
    (match cleaned with
      | some c => c.industry.orElse fun _ => lead.industry
      | none => lead.industry)
  let sc := safeCleaned lead cleaned
  { lead_id := lead.lead_id
    industry := (sc.industry.orElse fun _ => lead.industry).getD "default"
    weights_applied := weights
    scores :=
      { website_activity := 0
        reviews_average_rating := reviews.averageRating
        reviews_review_count := reviews.reviewCount
        reviews_score := 0
        years_in_business := 0
        revenue_proxies := 0
        industry_fit := 0 }
    reasoning := "Scoring failed: " ++ message
    final_score := 0
    interp := .coldDead }

/-- `processLead(lead)` as a function of the lead's oracle outcome: the `try`
branch pushes the scored result, the `catch` branch pushes the fallback
result built from `safeCleaned` and `fallbackScore`. -/
def processLead (lead : LeadInput) (outcome : LeadOutcome) : LeadResult :=
  match outcome with
  | .success cleaned reviews website score =>
      { lead := lead, score := score, cleaned := cleaned
        reviews := reviews, website := website }
  | .failure msg cleaned reviews website =>
      { lead := lead, score := fallbackScore lead cleaned reviews msg
        cleaned := safeCleaned lead cleaned, reviews := reviews, website := website }

/-- The batch result of `scoreLeads`: one result per input lead. -/
def scoreLeadsResults (inputs : List (LeadInput × LeadOutcome)) : List LeadResult :=
  inputs.map fun p => processLead p.1 p.2

/-- One `onProgress` payload (src/lib/scoreLeads.ts lines 403-410 and
481-488): both the success and the catch branch push the result and then
invoke the callback. -/
structure ProgressEvent where
  processed : ℕ
  total : ℕ
  lead : LeadInput
  result : LeadResult
deriving DecidableEq, Repr

/-- The sequence of `onProgress` invocations: one per lead, in completion
order, with `processed` the running count. -/
def progressEvents (inputs : List (LeadInput × LeadOutcome)) : List ProgressEvent :=
  (scoreLeadsResults inputs).enum.map fun p =>
    { processed := p.1 + 1, total := inputs.length, lead := p.2.lead, result := p.2 }

/-! ### C2 -/

/-- **C2.** An uncaught error while processing one lead does not fail the
batch: with the failing lead at position `xs.length`, the orchestrator still
returns one result per input lead; the failed lead's result has
`final_score = 0`, the Cold Dead interpretation, all five sub-scores `0`, and
reasoning text containing the error message; the progress callback is still
invoked for it; and every other lead's result is exactly the result of its
own outcome, unaffected by the failure. -/
theorem c2_failure_isolated (xs ys : List (LeadInput × LeadOutcome))
    (lead : LeadInput) (msg : String) (cl : Option CleanLead)
    (rs : ReviewSnapshot) (ws : Option WebsiteSignals) :
    (scoreLeadsResults (xs ++ (lead, .failure msg cl rs ws) :: ys)).length
        = (xs ++ (lead, .failure msg cl rs ws) :: ys).length
      ∧ (scoreLeadsResults (xs ++ (lead, .failure msg cl rs ws) :: ys)).get? xs.length
        = some (processLead lead (.failure msg cl rs ws))
      ∧ (processLead lead (.failure msg cl rs ws)).score.final_score = 0
      ∧ (processLead lead (.failure msg cl rs ws)).score.interp = .coldDead
      ∧ (processLead lead (.failure msg cl rs ws)).score.scores.website_activity = 0
      ∧ (processLead lead (.failure msg cl rs ws)).score.scores.reviews_score = 0
      ∧ (processLead lead (.failure msg cl rs ws)).score.scores.years_in_business = 0
      ∧ (processLead lead (.failure msg cl rs ws)).score.scores.revenue_proxies = 0
      ∧ (processLead lead (.failure msg cl rs ws)).score.scores.industry_fit = 0
      ∧ containsStr (processLead lead (.failure msg cl rs ws)).score.reasoning msg
      ∧ (progressEvents (xs ++ (lead, .failure msg cl rs ws) :: ys)).length
        = (xs ++ (lead, .failure msg cl rs ws) :: ys).length
      ∧ ((progressEvents (xs ++ (lead, .failure msg cl rs ws) :: ys)).get?
            xs.length).map (·.lead) = some lead
      ∧ ∀ j l2 o2, j ≠ xs.length
          → (xs ++ (lead, .failure msg cl rs ws) :: ys).get? j = some (l2, o2)
          → (scoreLeadsResults (xs ++ (lead, .failure msg cl rs ws) :: ys)).get? j
            = some (processLead l2 o2) := by
  have hmap : ∀ (inputs : List (LeadInput × LeadOutcome)) (j : ℕ),
      (scoreLeadsResults inputs).get? j
        = (inputs.get? j).map fun p => processLead p.1 p.2 := by
    intro inputs j
    simp [scoreLeadsResults, List.get?_map]
  have hmid : (xs ++ (lead, LeadOutcome.failure msg cl rs ws) :: ys).get? xs.length
      = some (lead, LeadOutcome.failure msg cl rs ws) := by
    rw [List.get?_append_right (Nat.le_refl _)]
    simp
  refine ⟨by simp [scoreLeadsResults], ?_, rfl, rfl, rfl, rfl, rfl, rfl, rfl, ?_, ?_, ?_, ?_⟩
  · rw [hmap, hmid]
    rfl
  · exact ⟨"Scoring failed: ", "", by simp [processLead, fallbackScore]⟩
  · simp [progressEvents, scoreLeadsResults]
  · simp only [progressEvents, List.get?_map]
    rw [List.get?_enum]
    rw [hmap, hmid]
    simp [processLead]
  · intro j l2 o2 _ hj
    rw [hmap, hj]
    rfl

/-! ## Job state machine — src/lib/jobQueue.ts and the durable job worker

Both the in-memory queue (`runQueue`, src/lib/jobQueue.ts lines 62-113) and
the durable worker (`processLeadJob`) drive the same job-header transitions:

* enqueue: `status = queued`, `processed = 0`, `total = #leads`;
* claim: `queued → processing` (status only);
* reclaim: a stale `processing` job stays `processing` (timestamp refresh);
* progress: one increment of `processed` per completed item — the callback
  increments only when a pending item index is found (the worker returns
  before `processedCount += 1` when `itemIndex === undefined`), so an
  increment always corresponds to one item gaining a result;
* complete: once every item has a result, `status = completed` and
  `processed` is written as the item count (= `total`);
* fail: `status = failed`, `processed` left at its current value.

The durable store is modelled as reliable state (each update applies); `done`
counts the items holding a result. -/

inductive JobStatus where
  | queued
  | processing
  | completed
  | failed
deriving DecidableEq, Repr

/-- The job header state: `total`, the `processed` counter, the number of
items holding a result (`done`), and the status. -/
structure JobState where
  total : ℕ
  processed : ℕ
  done : ℕ
  status : JobStatus
deriving DecidableEq, Repr

/-- A freshly enqueued job (`enqueueLeadJob`: `status: "queued"`,
`total: leads.length`, `processed: 0`, no item has a result yet). -/
def initJob (n : ℕ) : JobState :=
  { total := n, processed := 0, done := 0, status := .queued }

/-- One transition of the job header, as performed by the queue runner /
durable worker. -/
inductive JobStep : JobState → JobState → Prop where
  | claim (s : JobState) : s.status = .queued →
      JobStep s { s with status := .processing }
  | reclaim (s : JobState) : s.status = .processing → JobStep s s
  | progress (s : JobState) : s.status = .processing → s.done < s.total →
      JobStep s { s with processed := s.processed + 1, done := s.done + 1 }
  | complete (s : JobState) : s.status = .processing → s.done = s.total →
      JobStep s { s with status := .completed, processed := s.total }
  | fail (s : JobState) : s.status = .processing →
      JobStep s { s with status := .failed }

/-- States reachable from a freshly enqueued job of `n` leads. -/
inductive JobReachable (n : ℕ) : JobState → Prop where
  | init : JobReachable n (initJob n)
  | step {s s' : JobState} : JobReachable n s → JobStep s s' → JobReachable n s'

/-- The inductive invariant: `processed` tracks the completed-item count,
which never exceeds `total`, and a completed job has `processed = total`. -/
def JobInv (s : JobState) : Prop :=
  s.processed = s.done ∧ s.done ≤ s.total ∧
    (s.status = .completed → s.processed = s.total)

theorem jobStep_inv {s s' : JobState} (h : JobInv s) (hs : JobStep s s') :
    JobInv s' := by
  obtain ⟨h1, h2, h3⟩ := h
  cases hs with
  | claim hq => exact ⟨h1, h2, fun hc => JobStatus.noConfusion hc⟩
  | reclaim hp => exact ⟨h1, h2, h3⟩
  | progress hp hd =>
    exact ⟨congrArg (· + 1) h1, hd,
      fun hc => JobStatus.noConfusion (hp.symm.trans hc)⟩
  | complete hp hd => exact ⟨hd.symm, h2, fun _ => rfl⟩
  | fail hp => exact ⟨h1, h2, fun hc => JobStatus.noConfusion hc⟩

theorem jobReachable_inv {n : ℕ} {s : JobState} (h : JobReachable n s) :
    JobInv s := by
  induction h with
  | init => exact ⟨rfl, Nat.zero_le _, by intro hc; simp [initJob] at hc⟩
  | step _ hs ih => exact jobStep_inv ih hs

/-! ### C3 -/

/-- **C3.** Across every sequence of enqueue/claim/progress/complete/fail
transitions: in every reachable job state the `processed` counter never
exceeds `total`; whenever the status is `completed`, `processed` equals
`total`; and every single transition out of a reachable state leaves
`processed` non-decreasing (so `processed` is monotonically non-decreasing
along every run). -/
theorem c3_processed_monotone_bounded {n : ℕ} {s : JobState}
    (h : JobReachable n s) :
    s.processed ≤ s.total
      ∧ (s.status = .completed → s.processed = s.total)
      ∧ ∀ s', JobStep s s' → s.processed ≤ s'.processed := by
  obtain ⟨h1, h2, h3⟩ := jobReachable_inv h
  refine ⟨h1.le.trans h2, h3, ?_⟩
  intro s' hs
  cases hs with
  | claim hq => exact Nat.le_refl _
  | reclaim hp => exact Nat.le_refl _
  | progress hp hd => exact Nat.le_succ _
  | complete hp hd => exact h1.le.trans h2
  | fail hp => exact Nat.le_refl _

/-- Witness for C3: a concrete run enqueue → claim → progress → complete of a
one-lead job reaches a state with `processed = total = 1`, and the theorem
applies to it. -/
theorem c3_witness :
    ({ total := 1, processed := 1, done := 1, status := .completed } : JobState).processed
        ≤ ({ total := 1, processed := 1, done := 1, status := .completed } : JobState).total
      ∧ (({ total := 1, processed := 1, done := 1, status := .completed } : JobState).status
            = .completed →
          ({ total := 1, processed := 1, done := 1, status := .completed } : JobState).processed
            = ({ total := 1, processed := 1, done := 1, status := .completed } : JobState).total)
      ∧ ∀ s', JobStep { total := 1, processed := 1, done := 1, status := .completed } s'
          → 1 ≤ s'.processed := by
  have hr : JobReachable 1 { total := 1, processed := 1, done := 1, status := .completed } := by
    have h0 : JobReachable 1 (initJob 1) := JobReachable.init
    have h1 : JobReachable 1 { total := 1, processed := 0, done := 0, status := .processing } :=
      JobReachable.step h0 (JobStep.claim _ rfl)
    have h2 : JobReachable 1 { total := 1, processed := 1, done := 1, status := .processing } :=
      JobReachable.step h1 (JobStep.progress _ rfl (by decide))
    exact JobReachable.step h2 (JobStep.complete _ rfl rfl)
  exact c3_processed_monotone_bounded hr

/-! ## claim / reclaim of durable jobs (the worker module, `claimLeadJob`)

`claimLeadJob(client, job)` works on a *snapshot* `job` previously loaded by
the worker while the store may have moved on; updates are conditional
(`.eq("status", …)`, `.lte("updated_at", …)`), and the `set_updated_at`
trigger stamps every successful update with the current time.  Timestamps
are integers (ms); `threshold` is `STALE_JOB_THRESHOLD_MS`. -/

/-- A `lead_jobs` row as far as claiming is concerned. -/
structure JobRow where
  status : JobStatus
  updatedAt : ℤ
deriving DecidableEq, Repr

/-- `isJobStale(job)`: the snapshot's last update is older than the staleness
threshold (`Date.now() - updatedAt > STALE_JOB_THRESHOLD_MS`). -/
def isJobStale (threshold now : ℤ) (row : JobRow) : Bool :=
  now - row.updatedAt > threshold

/-- `claimLeadJob`: given the worker's snapshot and the store's current row,
returns the claimed row (`some`) or `none`, together with the resulting
store row.  The `queued → processing` branch is a CAS on
`status = "queued"`; the reclaim branch requires the *snapshot* to look
stale and then CASes on `status = "processing" ∧ updated_at ≤ now - threshold`;
either successful update stamps `updatedAt := now` (DB trigger). -/
def claimLeadJob (threshold : ℤ) (snapshot : JobRow) (db : JobRow) (now : ℤ) :
    Option JobRow × JobRow :=
  match snapshot.status with
  | .completed => (none, db)
  | .failed => (none, db)
  | .queued =>
      if db.status = .queued then
        let db2 : JobRow := { status := .processing, updatedAt := now }
        (some db2, db2)
      else (none, db)
  | .processing =>
      if ¬ isJobStale threshold now snapshot then (none, db)
      else if db.status = .processing ∧ db.updatedAt ≤ now - threshold then
        let db2 : JobRow := { status := .processing, updatedAt := now }
        (some db2, db2)
      else (none, db)

/-! ### C4 -/

/-- **C4.** `claim` on a job already in `processing` returns `null` (and
leaves the store untouched) when the snapshot is not stale — its last update
is within the staleness threshold.  A stale `processing` job is reclaimed via
the conditional update on current status and timestamp, and concurrent
reclaim attempts succeed at most once: after a successful reclaim at `t1`,
any second attempt at `t2 < t1 + threshold` (i.e. within the staleness
window, for any snapshot the second worker may hold) returns `null` and
leaves the store untouched. -/
theorem c4_claim_noop_and_exclusive_reclaim (threshold : ℤ)
    (snap1 snap2 db0 : JobRow) (t1 t2 : ℤ) :
    (snap1.status = .processing → t1 - snap1.updatedAt ≤ threshold →
      claimLeadJob threshold snap1 db0 t1 = (none, db0))
      ∧ (snap1.status = .processing →
          ∀ db1, (claimLeadJob threshold snap1 db0 t1).1 = some db1 →
          t2 < t1 + threshold →
          claimLeadJob threshold snap2 db1 t2 = (none, db1)) := by
  constructor
  · intro hp hns
    simp [claimLeadJob, hp, isJobStale]
    intro hc
    omega
  · intro hp db1 hsucc ht2
    have hdb1 : db1 = { status := .processing, updatedAt := t1 } := by
      simp [claimLeadJob, hp] at hsucc
      by_cases hstale : isJobStale threshold t1 snap1
      · simp [hstale] at hsucc
        by_cases hcas : db0.status = JobStatus.processing ∧ db0.updatedAt ≤ t1 - threshold
        · simp [hcas] at hsucc
          exact hsucc.symm
        · simp [hcas] at hsucc
      · simp [hstale] at hsucc
    subst hdb1
    cases h2 : snap2.status with
    | completed => simp [claimLeadJob, h2]
    | failed => simp [claimLeadJob, h2]
    | queued => simp [claimLeadJob, h2]
    | processing =>
      by_cases hstale2 : isJobStale threshold t2 snap2
      · simp [claimLeadJob, h2, hstale2]
        omega
      · simp [claimLeadJob, h2, hstale2]

/-- Witness for C4: with `threshold = 60000`, a non-stale claim at `t = 100000`
on a snapshot updated at `50000` is a no-op, and after a successful reclaim at
`t1 = 100000` of a row updated at `0`, a second attempt at `t2 = 120000`
(within the window) is a no-op against the refreshed row. -/
theorem c4_witness :
    claimLeadJob 60000 { status := .processing, updatedAt := 50000 }
        { status := .processing, updatedAt := 50000 } 100000
      = (none, { status := .processing, updatedAt := 50000 })
    ∧ claimLeadJob 60000 { status := .processing, updatedAt := 0 }
        { status := .processing, updatedAt := 100000 } 120000
      = (none, { status := .processing, updatedAt := 100000 }) := by
  constructor
  · exact (c4_claim_noop_and_exclusive_reclaim 60000
      { status := .processing, updatedAt := 50000 }
      { status := .processing, updatedAt := 0 }
      { status := .processing, updatedAt := 50000 } 100000 120000).1 rfl (by decide)
  · exact (c4_claim_noop_and_exclusive_reclaim 60000
      { status := .processing, updatedAt := 0 }
      { status := .processing, updatedAt := 0 }
      { status := .processing, updatedAt := 0 } 100000 120000).2 rfl
      { status := .processing, updatedAt := 100000 } (by decide) (by decide)

/-! ## src/lib/enrich/mapsLimiter — `MapsLookupLimiter`

Throttle state and backoff arithmetic of the shared rate limiter.  Times are
integer milliseconds (`ℤ`), delays `ℕ`.  `maxThrottleLevel` idealises the
constructor's float computation
`Math.max(1, Math.ceil(Math.log2(Math.max(maxBackoffMs / safeBase, 1))) + 1)`:
for positive integers, `⌈log2 x⌉ = Nat.clog 2 ⌈x⌉` because `2^k ≥ x` exactly
when `2^k ≥ ⌈x⌉`. -/

structure LimiterConfig where
  maxConcurrency : ℕ
  minDelayMs : ℕ
  baseBackoffMs : ℕ
  maxBackoffMs : ℕ
  backoffResetMs : ℕ
deriving DecidableEq, Repr

/-- The cap on the throttle level computed in the constructor. -/
def maxThrottleLevel (cfg : LimiterConfig) : ℕ :=
  let safeBase := max cfg.baseBackoffMs 1
  max 1 (Nat.clog 2 ((cfg.maxBackoffMs + safeBase - 1) / safeBase) + 1)

/-- The limiter's throttle state: `throttleLevel`, `throttleUntil` (the
"not-before" time) and `lastThrottleAt`. -/
structure ThrottleState where
  level : ℕ
  untilT : ℤ
  lastThrottleAt : ℤ
deriving DecidableEq, Repr

/-- `registerThrottle(signal)` (mapsLimiter lines 573-596): bump the level
(capped), compute `delay = min(maxBackoffMs, baseBackoffMs * 2^(level-1))`,
and push `throttleUntil` forward monotonically
(`Math.max(throttleUntil, now + delay)`). -/
def registerThrottle (cfg : LimiterConfig) (s : ThrottleState) (now : ℤ) :
    ThrottleState :=
  let level := if s.level < maxThrottleLevel cfg then s.level + 1 else s.level
  let delay : ℕ := min cfg.maxBackoffMs (cfg.baseBackoffMs * 2 ^ (level - 1))
  { level := level, untilT := max s.untilT (now + (delay : ℤ)), lastThrottleAt := now }

/-- `registerSuccess()`: decrement the level (floor zero) and clear the delay
once the level reaches zero. -/
def registerSuccess (s : ThrottleState) : ThrottleState :=
  if 0 < s.level then
    let l := s.level - 1
    { s with level := l, untilT := if l = 0 then 0 else s.untilT }
  else s

/-- `maybeResetThrottle(now)`: full reset after a quiet period of
`backoffResetMs` without throttle signals. -/
def maybeResetThrottle (cfg : LimiterConfig) (s : ThrottleState) (now : ℤ) :
    ThrottleState :=
  if s.level = 0 then s
  else if (cfg.backoffResetMs : ℤ) ≤ now - s.lastThrottleAt then
    { s with level := 0, untilT := 0 }
  else s

/-- A run of consecutive `registerThrottle` calls (no intervening success or
reset) at the given times. -/
def throttleCalls (cfg : LimiterConfig) (s : ThrottleState) (ts : List ℤ) :
    ThrottleState :=
  ts.foldl (fun st t => registerThrottle cfg st t) s

theorem throttleCalls_level_ge (cfg : LimiterConfig) (s : ThrottleState)
    (ts : List ℤ) :
    min (s.level + ts.length) (maxThrottleLevel cfg)
      ≤ (throttleCalls cfg s ts).level := by
  induction ts generalizing s with
  | nil => simp [throttleCalls]
  | cons t ts ih =>
    have h := ih (registerThrottle cfg s t)
    have hlvl : (registerThrottle cfg s t).level
        = if s.level < maxThrottleLevel cfg then s.level + 1 else s.level := rfl
    have hfold : throttleCalls cfg s (t :: ts)
        = throttleCalls cfg (registerThrottle cfg s t) ts := rfl
    rw [hfold]
    rw [hlvl] at h
    by_cases hc : s.level < maxThrottleLevel cfg
    · simp only [hc, if_pos] at h
      simp only [List.length_cons]
      omega
    · simp only [hc, if_neg, not_false_iff] at h
      simp only [List.length_cons]
      omega

theorem maxBackoff_le_base_mul_pow (cfg : LimiterConfig)
    (hb : 1 ≤ cfg.baseBackoffMs) :
    cfg.maxBackoffMs ≤ cfg.baseBackoffMs * 2 ^ (maxThrottleLevel cfg - 1) := by
  have hsafe : max cfg.baseBackoffMs 1 = cfg.baseBackoffMs := by omega
  have hml : maxThrottleLevel cfg - 1
      = Nat.clog 2 ((cfg.maxBackoffMs + cfg.baseBackoffMs - 1) / cfg.baseBackoffMs) := by
    simp only [maxThrottleLevel, hsafe]
    omega
  set d := (cfg.maxBackoffMs + cfg.baseBackoffMs - 1) / cfg.baseBackoffMs with hd
  have hdiv : cfg.maxBackoffMs ≤ cfg.baseBackoffMs * d := by
    have h1 := Nat.div_add_mod (cfg.maxBackoffMs + cfg.baseBackoffMs - 1) cfg.baseBackoffMs
    have h2 := Nat.mod_lt (cfg.maxBackoffMs + cfg.baseBackoffMs - 1)
      (show 0 < cfg.baseBackoffMs by omega)
    rw [← hd] at h1
    generalize (cfg.maxBackoffMs + cfg.baseBackoffMs - 1) % cfg.baseBackoffMs = r at h1 h2
    generalize cfg.baseBackoffMs * d = c at h1 ⊢
    omega
  have hpow : d ≤ 2 ^ Nat.clog 2 d := Nat.le_pow_clog (by omega) d
  calc cfg.maxBackoffMs ≤ cfg.baseBackoffMs * d := hdiv
    _ ≤ cfg.baseBackoffMs * 2 ^ Nat.clog 2 d := Nat.mul_le_mul_left _ hpow
    _ = cfg.baseBackoffMs * 2 ^ (maxThrottleLevel cfg - 1) := by rw [hml]

theorem delay_lower_bound (cfg : LimiterConfig) (hb : 1 ≤ cfg.baseBackoffMs)
    (k l : ℕ) (hl : min k (maxThrottleLevel cfg) ≤ l) (hk : 1 ≤ k) :
    min cfg.maxBackoffMs (cfg.baseBackoffMs * 2 ^ (k - 1))
      ≤ min cfg.maxBackoffMs (cfg.baseBackoffMs * 2 ^ (l - 1)) := by
  by_cases hcase : k ≤ maxThrottleLevel cfg
  · have hkl : k ≤ l := by omega
    have : cfg.baseBackoffMs * 2 ^ (k - 1) ≤ cfg.baseBackoffMs * 2 ^ (l - 1) :=
      Nat.mul_le_mul_left _ (Nat.pow_le_pow_right (by omega) (by omega))
    exact min_le_min (Nat.le_refl _) this
  · have hml : maxThrottleLevel cfg ≤ l := by omega
    have hcap : cfg.maxBackoffMs ≤ cfg.baseBackoffMs * 2 ^ (l - 1) := by
      calc cfg.maxBackoffMs
          ≤ cfg.baseBackoffMs * 2 ^ (maxThrottleLevel cfg - 1) :=
            maxBackoff_le_base_mul_pow cfg hb
        _ ≤ cfg.baseBackoffMs * 2 ^ (l - 1) :=
            Nat.mul_le_mul_left _ (Nat.pow_le_pow_right (by omega) (by omega))
    have : min cfg.maxBackoffMs (cfg.baseBackoffMs * 2 ^ (l - 1)) = cfg.maxBackoffMs := by
      omega
    rw [this]
    exact Nat.min_le_left _ _

/-! ### C5 -/

/-- **C5.** For the rate limiter (with a sane configuration,
`1 ≤ baseBackoffMs ≤ maxBackoffMs`): no `registerThrottle` call ever decreases
an already-later not-before time; a single call raises the not-before time to
at least `now + baseBackoffMs`; and `k = ts.length + 1` consecutive calls
without an intervening success, the last at time `t`, raise it to at least
`t + min(maxBackoffMs, baseBackoffMs * 2^(k-1))`. -/
theorem c5_throttle_backoff (cfg : LimiterConfig)
    (hb : 1 ≤ cfg.baseBackoffMs) (hbm : cfg.baseBackoffMs ≤ cfg.maxBackoffMs) :
    (∀ (s : ThrottleState) (now : ℤ),
        s.untilT ≤ (registerThrottle cfg s now).untilT)
      ∧ (∀ (s : ThrottleState) (now : ℤ),
          now + (cfg.baseBackoffMs : ℤ) ≤ (registerThrottle cfg s now).untilT)
      ∧ ∀ (s : ThrottleState) (ts : List ℤ) (t : ℤ),
          t + ((min cfg.maxBackoffMs (cfg.baseBackoffMs * 2 ^ ts.length) : ℕ) : ℤ)
            ≤ (throttleCalls cfg s (ts ++ [t])).untilT := by
  refine ⟨?_, ?_, ?_⟩
  · intro s now
    exact le_max_left _ _
  · intro s now
    have h2 : cfg.baseBackoffMs ≤ cfg.baseBackoffMs *
        2 ^ ((if s.level < maxThrottleLevel cfg then s.level + 1 else s.level) - 1) :=
      Nat.le_mul_of_pos_right _ (Nat.pos_pow_of_pos _ (by omega))
    have hdelay : cfg.baseBackoffMs
        ≤ min cfg.maxBackoffMs (cfg.baseBackoffMs *
            2 ^ ((if s.level < maxThrottleLevel cfg then s.level + 1 else s.level) - 1)) := by
      omega
    calc now + (cfg.baseBackoffMs : ℤ)
        ≤ now + ((min cfg.maxBackoffMs (cfg.baseBackoffMs *
            2 ^ ((if s.level < maxThrottleLevel cfg then s.level + 1 else s.level) - 1)) : ℕ) : ℤ) := by
          exact_mod_cast add_le_add_left (Int.ofNat_le.mpr hdelay) now
      _ ≤ (registerThrottle cfg s now).untilT := le_max_right _ _
  · intro s ts t
    have hfold : throttleCalls cfg s (ts ++ [t])
        = registerThrottle cfg (throttleCalls cfg s ts) t := by
      simp [throttleCalls]
    set s1 := throttleCalls cfg s ts with hs1
    have hlev : min ts.length (maxThrottleLevel cfg) ≤ s1.level := by
      have h := throttleCalls_level_ge cfg s ts
      rw [← hs1] at h
      omega
    set lvl2 := if s1.level < maxThrottleLevel cfg then s1.level + 1 else s1.level with hlvl2
    have hlev2 : min (ts.length + 1) (maxThrottleLevel cfg) ≤ lvl2 := by
      have hm1 : 1 ≤ maxThrottleLevel cfg := by
        simp [maxThrottleLevel]
      by_cases hc : s1.level < maxThrottleLevel cfg
      · simp only [hlvl2, hc, if_pos]
        omega
      · simp only [hlvl2, hc, if_neg, not_false_iff]
        omega
    have hdelay : min cfg.maxBackoffMs (cfg.baseBackoffMs * 2 ^ ts.length)
        ≤ min cfg.maxBackoffMs (cfg.baseBackoffMs * 2 ^ (lvl2 - 1)) := by
      have := delay_lower_bound cfg hb (ts.length + 1) lvl2 hlev2 (by omega)
      simpa using this
    rw [hfold]
    calc t + ((min cfg.maxBackoffMs (cfg.baseBackoffMs * 2 ^ ts.length) : ℕ) : ℤ)
        ≤ t + ((min cfg.maxBackoffMs (cfg.baseBackoffMs * 2 ^ (lvl2 - 1)) : ℕ) : ℤ) := by
          exact_mod_cast add_le_add_left (Int.ofNat_le.mpr hdelay) t
      _ ≤ (registerThrottle cfg s1 t).untilT := le_max_right _ _

/-- A concrete limiter configuration (base 100ms, max 1000ms). -/
def limiterCfg0 : LimiterConfig :=
  { maxConcurrency := 4, minDelayMs := 0, baseBackoffMs := 100
    maxBackoffMs := 1000, backoffResetMs := 60000 }

/-- A fresh throttle state. -/
def throttleState0 : ThrottleState :=
  { level := 0, untilT := 0, lastThrottleAt := 0 }

/-- Witness for C5 at the concrete configuration `limiterCfg0`: three
consecutive throttle calls at times `0, 10, 20` push the not-before time to
at least `20 + min(1000, 100·2²) = 420`. -/
theorem c5_witness :
    (20 : ℤ) + ((min 1000 (100 * 2 ^ 2) : ℕ) : ℤ)
      ≤ (throttleCalls limiterCfg0 throttleState0 ([0, 10] ++ [20])).untilT :=
  (c5_throttle_backoff limiterCfg0 (by decide) (by decide)).2.2
    throttleState0 [0, 10] 20

/-! ## src/lib/enrich/maps.ts — the identity-verified review resolver

The resolver is embedded as a function of an explicit network oracle
(`MapsWorld`): each `fetch` primitive consults the oracle and counts one
underlying network call.  Raw-HTML regex/JSON parsers
(`parseAggregateFromJsonLd`, `parseRatingFromAria`, `parseRatingFromPlainText`,
`extractPlaceUrlFromHtml`, the Jina text scan) are abstracted as the
oracle-supplied parse results carried on each fetched page; every piece of
logic downstream of those parses (token derivation, identity matching,
candidate scoring and ordering, sanitisation, caching, the strategy cascade)
is translated concretely from the source.  The embedding additionally
records the number of network calls issued (`calls`), the strategies
attempted in order (`trace`), and which strategy produced the returned
snapshot (`stage`). -/

/-- Insert a space between a lowercase ASCII letter and a following uppercase
one (the regex replace of `([a-z])([A-Z])` by `"$1 $2"`). -/
def camelSplitChars : List Char → List Char
  | [] => []
  | [c] => [c]
  | a :: b :: rest =>
      if a.isLower ∧ b.isUpper then a :: ' ' :: camelSplitChars (b :: rest)
      else a :: camelSplitChars (b :: rest)

/-- String version of `camelSplitChars`. -/
def camelSplit (s : String) : String := String.mk (camelSplitChars s.data)

/-- `/^[0-9]+$/`. -/
def isAllDigits (t : String) : Bool :=
  t.length > 0 && t.data.all (·.isDigit)

/-- The `GENERIC_TOKENS` boilerplate set. -/
def genericTokens : List String :=
  ["inc", "inc.", "llc", "llc.", "co", "co.", "corp", "corporation", "company",
   "companies", "group", "associates", "assoc", "association", "enterprise",
   "enterprises", "ltd", "ltd.", "limited", "pc", "plc", "pllc", "llp", "and",
   "for", "with", "the", "of", "in", "near", "at", "to", "by", "on", "a", "an",
   "amp", "system"]

/-- Replace every character outside `[a-z0-9]` by a space and split on
spaces (the `replace(/[^a-z0-9]+/g, " ").split(" ")` step; the collapsing
`+` only affects empty pieces, which every caller filters out). -/
def splitAlnum (s : String) : List String :=
  (splitOnSpace (s.data.map fun c => if c.isLower || c.isDigit then c else ' ')).map
    String.mk

/-- Keep the first occurrence of each element, preserving order. -/
def dedupKeep (l : List String) : List String :=
  l.foldl (fun acc t => if acc.contains t then acc else acc ++ [t]) []

/-- `tokenizeQuery(query)` (maps.ts lines 60-82). -/
def tokenizeQuery (query : String) : List String :=
  let normalized := lowerStr (camelSplit query)
  let rawTokens := splitAlnum normalized
  let baseTokens := (rawTokens.map trimStr).filter fun t =>
    t.length > 0 && !(genericTokens.contains t)
  let filtered1 := baseTokens.filter fun t => t.length ≥ 3 && !isAllDigits t
  let filtered :=
    if filtered1.isEmpty then baseTokens.filter fun t => t.length ≥ 2 && !isAllDigits t
    else filtered1
  dedupKeep filtered

/-- `deriveIdentityTokens(value)` (maps.ts lines 86-140): returns
`(tokens, strongTokens)`. -/
def deriveIdentityTokens (value : Option String) : List String × List String :=
  match value with
  | none => ([], [])
  | some v =>
    let trimmed := trimStr v
    if trimmed = "" then ([], [])
    else
      let lower := lowerStr trimmed
      let camel := lowerStr (camelSplit trimmed)
      let collapsed := String.mk (lower.data.filter fun c => c.isLower || c.isDigit)
      let hasWs := trimmed.data.any (·.isWhitespace)
      let strongTokens :=
        if !hasWs && collapsed.length ≥ 4 && !isAllDigits collapsed then [collapsed] else []
      let extras := ((splitAlnum camel).map trimStr).filter fun t =>
        t.length ≠ 0 && !isAllDigits t && !(genericTokens.contains t) && t.length ≥ 3
      (dedupKeep (strongTokens ++ extras), strongTokens)

/-- The identity-matching context of one `getMapsSnapshot` run:
`identityTokens`, the deduplicated required tokens, and
`minRequiredMatches`. -/
structure IdCtx where
  identityTokens : List String
  uniqueRequired : List String
  minRequired : ℕ
deriving DecidableEq, Repr

/-- The `matchesIdentityTokens` closure of `getMapsSnapshot`
(maps.ts lines 228-245); `some ""` is falsy like the source's `!text`. -/
def matchesIdentityTokens (ctx : IdCtx) (text : Option String) : Bool :=
  match text with
  | none => false
  | some t =>
    if t = "" then false
    else if ctx.identityTokens.isEmpty then true
    else
      let normalized := lowerStr t
      let matched := ctx.identityTokens.filter fun tok => strIncludes normalized tok
      if matched.isEmpty then false
      else if ctx.minRequired = 0 then true
      else
        decide ((matched.filter fun tok => ctx.uniqueRequired.contains tok).length
          ≥ ctx.minRequired)

/-- `decodeHtmlEntities` from `attemptPlace` (case-sensitive on the canonical
lowercase entity spellings; the source's `/gi` flag additionally matches
uppercase spellings, which no claim depends on). -/
def decodeHtmlEntities (v : String) : String :=
  replaceAll (replaceAll (replaceAll (replaceAll (replaceAll (replaceAll v
    "&amp;" "&") "&quot;" "\"") "&#39;" "\x27") "&lt;" "<") "&gt;" ">") "&#x2f;" "/"

/-- `MAX_REVIEW_COUNT`. -/
def MAX_REVIEW_COUNT : ℤ := 100000

/-- `sanitizeSnapshot(url, rating, reviewCount, method)` (maps.ts lines
184-201): rating rounded to one decimal, review count clamped to
`[0, MAX_REVIEW_COUNT]` (the `Number.isFinite` guards cannot fire over
`ℚ`/`ℤ`). -/
def sanitizeSnapshot (url : String) (rating : Option ℚ) (reviewCount : Option ℤ)
    (method : String) : ReviewSnapshot :=
  { averageRating := rating.map roundTo1
    reviewCount := reviewCount.map fun c => min (max c 0) MAX_REVIEW_COUNT
    sourceUrl := some url
    method := method }

/-- The aggregate-rating block parsed from ld+json (rating always present,
review count optional). -/
structure LdAgg where
  rating : ℚ
  reviewCount : Option ℤ
deriving DecidableEq, Repr

/-- A rating/review-count pair parsed from ARIA labels or visible text. -/
structure ParsedPair where
  rating : Option ℚ
  reviewCount : Option ℤ
deriving DecidableEq, Repr

/-- A fetched place page: final URL, raw `<title>` capture, the first 5000
characters of HTML used for identity matching, and the three parser
results in priority order. -/
structure PlacePage where
  url : String
  titleRaw : Option String
  headHtml : String
  ldjson : Option LdAgg
  aria : Option ParsedPair
  plainText : Option ParsedPair
deriving DecidableEq, Repr

/-- `HeadlessExtraction` (mapsHeadless.ts). -/
structure HeadlessExtraction where
  url : String
  rating : Option ℚ
  reviewCount : Option ℤ
  strategy : String
  name : Option String
  title : Option String
  address : Option String
deriving DecidableEq, Repr

/-- A fetched search-results page: final URL and the canonical place URL the
pattern match would extract from its HTML. -/
structure SearchPage where
  url : String
  extractedPlaceUrl : Option String
deriving DecidableEq, Repr

/-- One regex candidate of the Jina text fallback: rating, review count and
the ±250-character snippet around the match. -/
structure JinaCand where
  rating : ℚ
  reviewCount : Option ℤ
  snippet : String
deriving DecidableEq, Repr

/-- The network oracle: what each underlying fetch would produce.  `none`
models a failed/`!ok`/timed-out fetch (every fetch site catches errors). -/
structure MapsWorld where
  redirect : String → Option String
  placePage : String → Option PlacePage
  searchPage : Option SearchPage
  headlessEnabled : Bool
  headlessResult : Option String → Option HeadlessExtraction
  jinaCandidates : Option (List JinaCand)

/-- A TTL cache entry (maps.ts module-level `cache`). -/
structure MapsCacheEntry where
  snapshot : ReviewSnapshot
  expiresAt : ℤ
deriving DecidableEq, Repr

/-- The module-level TTL cache, as an association list (`Map.get`/`Map.set`
lookup semantics). -/
abbrev MapsCache : Type := List (String × MapsCacheEntry)

/-- `cache.get(key)`. -/
def cacheGet (c : MapsCache) (k : String) : Option MapsCacheEntry :=
  ((c : List (String × MapsCacheEntry)).find? fun p => p.1 == k).map (·.2)

/-- `cache.set(key, entry)` (lookup-equivalent to the in-place update). -/
def cacheSet (c : MapsCache) (k : String) (e : MapsCacheEntry) : MapsCache :=
  (k, e) :: (c : List (String × MapsCacheEntry)).filter fun p => !(p.1 == k)

/-- `followRedirect(url)` (mapsResolve.ts): the redirect target, or the
original URL when the fetch fails. -/
def followRedirect (w : MapsWorld) (url : String) : String :=
  (w.redirect url).getD url

/-- A conservative `encodeURIComponent`: alphanumerics pass through,
everything else becomes a decimal percent-escape.  Downstream logic treats
the encoded URL purely as an oracle key. -/
def encodeURIComponent (s : String) : String :=
  String.join (s.data.map fun c =>
    if c.isAlphanum then String.singleton c else "%" ++ toString c.toNat)

/-- `resolveViaApiQuery(query)` (mapsResolve.ts lines 89-96). -/
def resolveViaApiQuery (w : MapsWorld) (query : String) : Option String :=
  let apiUrl := "https://www.google.com/maps/search/?api=1&query=" ++ encodeURIComponent query
  let resolved := followRedirect w apiUrl
  if strIncludes resolved "/maps/place" then some resolved else none

/-- `attemptPlace(url, method)` (maps.ts lines 247-293): fetch the place
page, identity-check URL/decoded-title/HTML-head, then try the three
extractors in priority order.  Returns the produced snapshot (`none` when
the fetch failed) and the `methodsTried` entries pushed; the fetch itself is
always one network call. -/
def attemptPlace (w : MapsWorld) (ctx : IdCtx) (url : String) (method : String) :
    Option ReviewSnapshot × List String :=
  match w.placePage url with
  | none => (none, [method ++ ":fetch_failed"])
  | some page =>
    let title := page.titleRaw.map decodeHtmlEntities
    let identityMatch := matchesIdentityTokens ctx (some page.url)
      || matchesIdentityTokens ctx title
      || matchesIdentityTokens ctx (some page.headHtml)
    if !identityMatch then
      (some (sanitizeSnapshot page.url none none (method ++ ":nomatch")),
        [method ++ ":nomatch"])
    else
      match page.ldjson with
      | some a =>
          (some (sanitizeSnapshot page.url (some a.rating) a.reviewCount
            (method ++ ":ldjson")), [method])
      | none =>
        match page.aria with
        | some p =>
            (some (sanitizeSnapshot page.url p.rating p.reviewCount
              (method ++ ":aria")), [method])
        | none =>
          match page.plainText with
          | some p =>
              (some (sanitizeSnapshot page.url p.rating p.reviewCount
                (method ++ ":regex")), [method])
          | none => (some (sanitizeSnapshot page.url none none (method ++ ":none")), [method])

/-- A scored Jina candidate (the intermediate record built in
`fetchViaJina`). -/
structure ScoredCand where
  cand : JinaCand
  identityMatches : List String
  primaryMatches : List String
  tokenScore : ℕ
  ok : Bool
deriving DecidableEq, Repr

/-- The descending comparator of `fetchViaJina`'s `.sort(...)`: identity
matches, then primary matches, then token score, then review count.
`candLe a b` means `a` may stay before `b`. -/
def candLe (a b : ScoredCand) : Bool :=
  if a.identityMatches.length ≠ b.identityMatches.length then
    a.identityMatches.length > b.identityMatches.length
  else if a.primaryMatches.length ≠ b.primaryMatches.length then
    a.primaryMatches.length > b.primaryMatches.length
  else if a.tokenScore ≠ b.tokenScore then a.tokenScore > b.tokenScore
  else (b.cand.reviewCount.getD 0) ≤ (a.cand.reviewCount.getD 0)

/-- Stable insertion into a sorted list (new element goes after equals). -/
def insertSorted (x : ScoredCand) : List ScoredCand → List ScoredCand
  | [] => [x]
  | y :: ys => if candLe y x then y :: insertSorted x ys else x :: y :: ys

/-- Stable sort by `candLe` (JS `Array.prototype.sort` is stable). -/
def sortCands (l : List ScoredCand) : List ScoredCand :=
  l.foldl (fun acc x => insertSorted x acc) []

/-- `fetchViaJina(query, identityTokens, requiredTokens, minRequiredMatches,
methodLabel)` (maps.ts lines 404-511).  The fetched text's regex scan and
snippet windowing are the oracle's candidate list; token matching, scoring,
ordering and the final pick are concrete.  Returns the snapshot (or `none`)
and the number of network calls issued (0 when the token guard fires before
the fetch). -/
def fetchViaJina (w : MapsWorld) (query : String)
    (identityTokens requiredTokens : List String) (minRequired : ℕ)
    (methodLabel : String) : Option ReviewSnapshot × ℕ :=
  let jinaUrl := "https://r.jina.ai/https://maps.google.com/maps?q="
    ++ encodeURIComponent query
  let matchTokens := if identityTokens.isEmpty then tokenizeQuery query else identityTokens
  let primaryTokens :=
    if requiredTokens.isEmpty then matchTokens.take (min matchTokens.length 3)
    else requiredTokens
  if matchTokens.isEmpty then (none, 0)
  else
    match w.jinaCandidates with
    | none => (none, 1)
    | some cands =>
      if cands.isEmpty then (none, 1)
      else
        let scored := (cands.take 5).map fun cand =>
          let ns := lowerStr cand.snippet
          let matchedTokens := matchTokens.filter fun tk => strIncludes ns tk
          let idMatches :=
            if requiredTokens.isEmpty then matchedTokens
            else requiredTokens.filter fun tk => strIncludes ns tk
          let primaryMatches := primaryTokens.filter fun tk => strIncludes ns tk
          ({ cand := cand, identityMatches := idMatches
             primaryMatches := primaryMatches
             tokenScore := matchedTokens.length + primaryMatches.length
             ok := if requiredTokens.isEmpty then !matchedTokens.isEmpty
               else decide (idMatches.length ≥ max 1 minRequired) } : ScoredCand)
        let sorted := sortCands (scored.filter fun sc => sc.tokenScore > 0 && sc.ok)
        match sorted.head? with
        | none => (none, 1)
        | some primary =>
          match primary.cand.reviewCount with
          | none => (none, 1)
          | some rc =>
              (some (sanitizeSnapshot jinaUrl (some primary.cand.rating) (some rc)
                methodLabel), 1)

/-- The resolution strategies, in the order the code attempts them. -/
inductive Strategy where
  | headless
  | provided
  | serp
  | api
  | jinaMain
  | jinaRelaxed
  | jinaLoose
deriving DecidableEq, Repr

/-- Position of a strategy in the code's cascade. -/
def strategyRank : Strategy → ℕ
  | .headless => 0
  | .provided => 1
  | .serp => 2
  | .api => 3
  | .jinaMain => 4
  | .jinaRelaxed => 5
  | .jinaLoose => 6

/-- The instrumented result of a `getMapsSnapshot` run: the snapshot, the
cache afterwards, the number of network calls issued, the strategies
attempted in order, and the strategy whose confident result was returned
(`none` for a cache hit or the not-found sentinel). -/
structure ResolveOutcome where
  snapshot : ReviewSnapshot
  cache : MapsCache
  calls : ℕ
  trace : List Strategy
  stage : Option Strategy

/-- The per-run context shared by the cascade stages. -/
structure ResolveCtx where
  w : MapsWorld
  ttl : ℤ
  now : ℤ
  c : MapsCache
  cacheKey : String
  query : String
  providedUrl : Option String
  queryTokens : List String
  idctx : IdCtx
  resolvedProvidedUrl : Option String
  apiResolvedUrl : Option String

/-- The sentinel returned when nothing matches. -/
def notFoundSnapshot : ReviewSnapshot :=
  { averageRating := none, reviewCount := none, sourceUrl := none, method := "not_found" }

/-- An early return: cache the confident snapshot under the composite key
with the TTL and report the producing strategy. -/
def earlyReturn (r : ResolveCtx) (snap : ReviewSnapshot) (calls : ℕ)
    (trace : List Strategy) (stage : Strategy) : ResolveOutcome :=
  { snapshot := snap, cache := cacheSet r.c r.cacheKey ⟨snap, r.now + r.ttl⟩
    calls := calls, trace := trace, stage := some stage }

/-- Stage 6 (maps.ts lines 383-401): the fallback built from the retained
headless snapshot / search URL / provided URL and the `methodsTried` list,
collapsing to the not-found sentinel when it carries no rating and no review
count. -/
def jinaFallback (r : ResolveCtx) (hSnap : Option ReviewSnapshot)
    (tried : List String) (searchUrl : Option String) (calls : ℕ)
    (trace : List Strategy) : ResolveOutcome :=
  let fallbackUrl := (((hSnap.bind (·.sourceUrl)).orElse fun _ => searchUrl).orElse
    fun _ => (r.resolvedProvidedUrl.orElse fun _ => r.providedUrl)).getD ""
  let fallbackMethod := (hSnap.map (·.method)).getD
    (if tried.isEmpty then "none" else String.intercalate "->" tried)
  let fb := sanitizeSnapshot fallbackUrl (hSnap.bind (·.averageRating))
    (hSnap.bind (·.reviewCount)) fallbackMethod
  if fb.averageRating = none ∧ fb.reviewCount = none then
    { snapshot := notFoundSnapshot, cache := r.c, calls := calls
      trace := trace, stage := none }
  else
    { snapshot := fb, cache := r.c, calls := calls, trace := trace, stage := none }

/-- Stages 5a-5c and 6 of the cascade (maps.ts lines 356-401): the three
Jina text-fallback attempts, then the fallback/sentinel return.  `hSnap` is
the retained headless snapshot, `tried` the `methodsTried` accumulator,
`searchUrl` the search page's final URL if that fetch succeeded. -/
def jinaStages (r : ResolveCtx) (hSnap : Option ReviewSnapshot)
    (tried : List String) (searchUrl : Option String) (calls : ℕ)
    (trace : List Strategy) : ResolveOutcome :=
  let out1 := fetchViaJina r.w r.query r.idctx.identityTokens
    r.idctx.uniqueRequired r.idctx.minRequired "jina_text"
  let calls1 := calls + out1.2
  let trace1 := trace ++ (if out1.2 = 0 then [] else [Strategy.jinaMain])
  match out1.1 with
  | some snap =>
      { snapshot := snap, cache := r.c, calls := calls1, trace := trace1
        stage := some .jinaMain }
  | none =>
    let relaxedTokens := r.idctx.uniqueRequired.take 1
    let out2 :=
      if r.idctx.minRequired > 1 then
        fetchViaJina r.w r.query r.idctx.identityTokens relaxedTokens
          relaxedTokens.length "jina_text_relaxed"
      else (none, 0)
    let calls2 := calls1 + out2.2
    let trace2 := trace1 ++ (if out2.2 = 0 then [] else [Strategy.jinaRelaxed])
    match out2.1 with
    | some snap =>
        { snapshot := snap, cache := r.c, calls := calls2, trace := trace2
          stage := some .jinaRelaxed }
    | none =>
      let looseTokens :=
        if r.queryTokens.isEmpty then r.idctx.identityTokens else r.queryTokens
      let out3 :=
        if looseTokens.isEmpty then (none, 0)
        else fetchViaJina r.w r.query looseTokens [] 0 "jina_text_loose"
      let calls3 := calls2 + out3.2
      let trace3 := trace2 ++ (if out3.2 = 0 then [] else [Strategy.jinaLoose])
      match out3.1 with
      | some snap =>
          { snapshot := snap, cache := r.c, calls := calls3, trace := trace3
            stage := some .jinaLoose }
      | none => jinaFallback r hSnap tried searchUrl calls3 trace3

/-- Stage 4 (maps.ts lines 346-354): the API-redirect probe's canonical URL,
if distinct from the provided one, is fetched and verified. -/
def apiStage (r : ResolveCtx) (hSnap : Option ReviewSnapshot)
    (tried : List String) (searchUrl : Option String) (calls : ℕ)
    (trace : List Strategy) : ResolveOutcome :=
  match r.apiResolvedUrl with
  | none => jinaStages r hSnap tried searchUrl calls trace
  | some u =>
    let notSame : Bool :=
      match r.resolvedProvidedUrl with
      | none => true
      | some s => (s = "") || !(s = u)
    if strIncludes u "/maps/place" && notSame then
      let ap := attemptPlace r.w r.idctx u "api_query"
      let calls1 := calls + 1
      let trace1 := trace ++ [Strategy.api]
      let tried1 := tried ++ ap.2
      match ap.1 with
      | some snap =>
          if snap.averageRating ≠ none ∨ snap.reviewCount ≠ none then
            earlyReturn r snap calls1 trace1 .api
          else jinaStages r hSnap tried1 searchUrl calls1 trace1
      | none => jinaStages r hSnap tried1 searchUrl calls1 trace1
    else jinaStages r hSnap tried searchUrl calls trace

/-- Stage 3 (maps.ts lines 334-344): fetch the search page, extract an
embedded canonical URL, fetch and verify it. -/
def serpStage (r : ResolveCtx) (hSnap : Option ReviewSnapshot)
    (tried : List String) (calls : ℕ) (trace : List Strategy) : ResolveOutcome :=
  let calls1 := calls + 1
  let trace1 := trace ++ [Strategy.serp]
  match r.w.searchPage with
  | none => apiStage r hSnap tried none calls1 trace1
  | some sp =>
    match sp.extractedPlaceUrl with
    | none => apiStage r hSnap tried (some sp.url) calls1 trace1
    | some u =>
      let ap := attemptPlace r.w r.idctx u "serp_place"
      let calls2 := calls1 + 1
      let tried1 := tried ++ ap.2
      match ap.1 with
      | some snap =>
          if snap.averageRating ≠ none ∨ snap.reviewCount ≠ none then
            earlyReturn r snap calls2 trace1 .serp
          else apiStage r hSnap tried1 (some sp.url) calls2 trace1
      | none => apiStage r hSnap tried1 (some sp.url) calls2 trace1

/-- Stage 1 of the static cascade (maps.ts lines 326-332): the resolved
provided URL, when canonical, is fetched and verified. -/
def providedStage (r : ResolveCtx) (hSnap : Option ReviewSnapshot)
    (tried : List String) (calls : ℕ) (trace : List Strategy) : ResolveOutcome :=
  match r.resolvedProvidedUrl with
  | none => serpStage r hSnap tried calls trace
  | some u =>
    if strIncludes u "/maps/place" then
      let ap := attemptPlace r.w r.idctx u "provided"
      let calls1 := calls + 1
      let trace1 := trace ++ [Strategy.provided]
      let tried1 := tried ++ ap.2
      match ap.1 with
      | some snap =>
          if snap.averageRating ≠ none ∨ snap.reviewCount ≠ none then
            earlyReturn r snap calls1 trace1 .provided
          else serpStage r hSnap tried1 calls1 trace1
      | none => serpStage r hSnap tried1 calls1 trace1
    else serpStage r hSnap tried calls trace

/-- The composite cache key
`${CACHE_VERSION}::${query}::${providedUrl ?? ""}::${companyName ?? ""}`. -/
def mapsCacheKey (query : String) (providedUrl companyName : Option String) : String :=
  "identity_v2::" ++ query ++ "::" ++ providedUrl.getD "" ++ "::" ++ companyName.getD ""

/-- The headless-result processing of `getMapsSnapshot` (maps.ts lines
309-324): identity-match the extracted name/title/address, blank the values
on a mismatch, and return early when the identity matched and a value
survived sanitisation. -/
def headlessCase (r : ResolveCtx) (h : HeadlessExtraction) (calls : ℕ)
    (trace : List Strategy) : ResolveOutcome :=
  let identityText := String.intercalate " | "
    (([h.name, h.title, h.address].filterMap id).filter fun s => s ≠ "")
  let matchesH := matchesIdentityTokens r.idctx (some identityText)
  let methodLabel := if matchesH then h.strategy else h.strategy ++ ":nomatch"
  let hRating := if matchesH then h.rating else none
  let hCount := if matchesH then h.reviewCount else none
  let hSnap := sanitizeSnapshot h.url hRating hCount methodLabel
  if matchesH ∧ (hSnap.averageRating ≠ none ∨ hSnap.reviewCount ≠ none) then
    earlyReturn r hSnap calls trace .headless
  else providedStage r (some hSnap) [methodLabel] calls trace

/-- The uncached path of `getMapsSnapshot` (maps.ts lines 220-401):
identity-token setup, redirect resolution of the provided URL, the
API-redirect probe (issued up front as a headless hint), the headless
attempt, then the static cascade. -/
def resolveUncached (w : MapsWorld) (ttl now : ℤ) (c : MapsCache)
    (query : String) (providedUrl : Option String) (companyName : Option String) :
    ResolveOutcome :=
  let cacheKey := mapsCacheKey query providedUrl companyName
  let queryTokens := tokenizeQuery query
  let idt := deriveIdentityTokens companyName
  let companyTokens := idt.1
  let identityTokens := if companyTokens.isEmpty then queryTokens else companyTokens
  let provisionalRequired := if idt.2.isEmpty then companyTokens else idt.2
  let uniqueRequired := dedupKeep provisionalRequired
  let minRequired := if uniqueRequired.length ≥ 2 then 2 else uniqueRequired.length
  let resolvedProvidedUrl := providedUrl.map (followRedirect w)
  let callsA : ℕ := if providedUrl.isSome then 1 else 0
  let apiResolvedUrl := resolveViaApiQuery w query
  let callsB := callsA + 1
  let r : ResolveCtx :=
    { w := w, ttl := ttl, now := now, c := c, cacheKey := cacheKey
      query := query, providedUrl := providedUrl, queryTokens := queryTokens
      idctx := { identityTokens := identityTokens, uniqueRequired := uniqueRequired
                 minRequired := minRequired }
      resolvedProvidedUrl := resolvedProvidedUrl, apiResolvedUrl := apiResolvedUrl }
  let headlessCandidateUrl :=
    ([resolvedProvidedUrl, apiResolvedUrl].filterMap id).find? fun u =>
      strIncludes u "/maps/place"
  let headlessOut : Option HeadlessExtraction × ℕ :=
    if w.headlessEnabled then (w.headlessResult headlessCandidateUrl, 1) else (none, 0)
  let callsC := callsB + headlessOut.2
  let traceH : List Strategy := if w.headlessEnabled then [.headless] else []
  match headlessOut.1 with
  | none => providedStage r none [] callsC traceH
  | some h => headlessCase r h callsC traceH

/-- `getMapsSnapshot(query, providedUrl, companyName)` (maps.ts lines
203-402): serve an unexpired cache entry carrying a non-null rating or
review count, else run the uncached resolution path. -/
def getMapsSnapshot (w : MapsWorld) (ttl now : ℤ) (c : MapsCache)
    (query : String) (providedUrl : Option String) (companyName : Option String) :
    ResolveOutcome :=
  let cacheKey := mapsCacheKey query providedUrl companyName
  let cachedHit :=
    match cacheGet c cacheKey with
    | some e =>
        if now < e.expiresAt
            ∧ (e.snapshot.averageRating ≠ none ∨ e.snapshot.reviewCount ≠ none) then
          some e.snapshot
        else none
    | none => none
  match cachedHit with
  | some snap => { snapshot := snap, cache := c, calls := 0, trace := [], stage := none }
  | none => resolveUncached w ttl now c query providedUrl companyName

/-- Sanitised-snapshot shape: review count (when present) clamped to
`[0, MAX_REVIEW_COUNT]`, rating (when present) an integer number of
tenths. -/
def SaneSnap (s : ReviewSnapshot) : Prop :=
  (∀ n, s.reviewCount = some n → 0 ≤ n ∧ n ≤ MAX_REVIEW_COUNT)
    ∧ ∀ q, s.averageRating = some q → ∃ m : ℤ, q = (m : ℚ) / 10

theorem saneSnap_sanitize (url : String) (rating : Option ℚ)
    (reviewCount : Option ℤ) (method : String) :
    SaneSnap (sanitizeSnapshot url rating reviewCount method) := by
  constructor
  · intro n hn
    simp [sanitizeSnapshot] at hn
    obtain ⟨c, _, hc⟩ := hn
    simp only [MAX_REVIEW_COUNT] at hc ⊢
    omega
  · intro q hq
    simp [sanitizeSnapshot] at hq
    obtain ⟨r, _, hr⟩ := hq
    exact ⟨round (r * 10), by rw [← hr]; rfl⟩

theorem saneSnap_notFound : SaneSnap notFoundSnapshot := by
  constructor <;> intro x hx <;> simp [notFoundSnapshot] at hx

theorem attemptPlace_some_sane (w : MapsWorld) (ctx : IdCtx) (url method : String)
    (s : ReviewSnapshot) (h : (attemptPlace w ctx url method).1 = some s) :
    SaneSnap s := by
  unfold attemptPlace at h
  repeat' (first | split at h | simp at h)
  all_goals first
    | exact h ▸ saneSnap_sanitize _ _ _ _
    | exact h.symm ▸ saneSnap_sanitize _ _ _ _

theorem fetchViaJina_zero_calls (w : MapsWorld) (query : String)
    (identityTokens requiredTokens : List String) (minRequired : ℕ)
    (methodLabel : String)
    (h : (fetchViaJina w query identityTokens requiredTokens minRequired methodLabel).2 = 0) :
    (fetchViaJina w query identityTokens requiredTokens minRequired methodLabel).1 = none := by
  unfold fetchViaJina at h ⊢
  repeat' (first | split at h | simp at h)
  all_goals simp_all

theorem fetchViaJina_some_spec (w : MapsWorld) (query : String)
    (identityTokens requiredTokens : List String) (minRequired : ℕ)
    (methodLabel : String) (s : ReviewSnapshot)
    (h : (fetchViaJina w query identityTokens requiredTokens minRequired methodLabel).1
      = some s) :
    s.reviewCount ≠ none ∧ SaneSnap s := by
  unfold fetchViaJina at h
  repeat' (first | split at h | simp at h)
  all_goals refine ⟨?_, ?_⟩
  all_goals first
    | exact h ▸ saneSnap_sanitize _ _ _ _
    | exact h.symm ▸ saneSnap_sanitize _ _ _ _
    | (rw [← h]; simp [sanitizeSnapshot])
    | (rw [h]; simp [sanitizeSnapshot])

/-- The full strategy cascade in the order the code attempts it. -/
def cascadeList : List Strategy :=
  [.headless, .provided, .serp, .api, .jinaMain, .jinaRelaxed, .jinaLoose]

theorem ite_nil_sublist (c : Prop) [Decidable c] (x : Strategy) :
    (if c then ([] : List Strategy) else [x]).Sublist [x] := by
  split
  · simp
  · exact List.Sublist.refl _

theorem cascade_drop_rank (t : Strategy) :
    cascadeList.drop (strategyRank t) = t :: cascadeList.drop (strategyRank t + 1) := by
  cases t <;> rfl

theorem cascade_drop_anti {n m : ℕ} (h : n ≤ m) :
    (cascadeList.drop m).Sublist (cascadeList.drop n) := by
  have hd : cascadeList.drop m = (cascadeList.drop n).drop (m - n) := by
    rw [List.drop_drop]
    congr 1
    omega
  rw [hd]
  exact List.drop_sublist _ _

/-- The invariant carried through the cascade stages: relative to a context
`r`, a cascade position `lo` and the trace prefix `trace0` the stage was
entered with, the stage's outcome appends only strategies from position `lo`
onwards, in cascade order (a sublist of the cascade suffix); a reported
producing strategy is the last attempted and its snapshot is confident; a
both-`null` snapshot is exactly the sentinel; the snapshot is sanitised; and
the cache is unchanged unless a static-cascade strategy (rank ≤ 3) returned
early, in which case exactly its snapshot was inserted under the composite
key with the TTL expiry. -/
def StageInv (r : ResolveCtx) (lo : ℕ) (trace0 : List Strategy)
    (out : ResolveOutcome) : Prop :=
  ∃ tr2, out.trace = trace0 ++ tr2
    ∧ tr2.Sublist (cascadeList.drop lo)
    ∧ (∀ s, out.stage = some s → tr2.getLast? = some s
        ∧ (out.snapshot.averageRating ≠ none ∨ out.snapshot.reviewCount ≠ none))
    ∧ (out.snapshot.averageRating = none → out.snapshot.reviewCount = none →
        out.snapshot = notFoundSnapshot)
    ∧ SaneSnap out.snapshot
    ∧ (∀ s, out.stage = some s → strategyRank s ≤ 3 →
        out.cache = cacheSet r.c r.cacheKey ⟨out.snapshot, r.now + r.ttl⟩)
    ∧ (∀ s, out.stage = some s → 4 ≤ strategyRank s → out.cache = r.c)
    ∧ (out.stage = none → out.cache = r.c)

theorem stageInv_mono {r : ResolveCtx} {lo lo' : ℕ} {trace0 : List Strategy}
    {out : ResolveOutcome} (h : StageInv r lo' trace0 out) (hle : lo ≤ lo') :
    StageInv r lo trace0 out := by
  obtain ⟨tr2, h1, h2, h3, h4, h5, h6, h7, h8⟩ := h
  exact ⟨tr2, h1, h2.trans (cascade_drop_anti hle), h3, h4, h5, h6, h7, h8⟩

theorem stageInv_prepend {r : ResolveCtx} {lo lo' : ℕ} {trace0 : List Strategy}
    {t : Strategy} {out : ResolveOutcome}
    (h : StageInv r lo' (trace0 ++ [t]) out)
    (hrank : strategyRank t < lo') (hlo : lo ≤ strategyRank t) :
    StageInv r lo trace0 out := by
  obtain ⟨tr2, h1, h2, h3, h4, h5, h6, h7, h8⟩ := h
  refine ⟨t :: tr2, by simpa using h1, ?_, ?_, h4, h5, h6, h7, h8⟩
  · have hsub : tr2.Sublist (cascadeList.drop (strategyRank t + 1)) :=
      h2.trans (cascade_drop_anti (by omega))
    have : (t :: tr2).Sublist (t :: cascadeList.drop (strategyRank t + 1)) :=
      hsub.cons₂ t
    rw [← cascade_drop_rank] at this
    exact this.trans (cascade_drop_anti hlo)
  · intro s hs
    obtain ⟨hlast, hnn⟩ := h3 s hs
    refine ⟨?_, hnn⟩
    have htr2 : tr2 ≠ [] := by
      intro he
      rw [he] at hlast
      simp at hlast
    have hcons : t :: tr2 = [t] ++ tr2 := rfl
    rw [hcons, List.getLast?_append, hlast]
    rfl

theorem jinaFallback_inv (r : ResolveCtx) (hSnap : Option ReviewSnapshot)
    (tried : List String) (searchUrl : Option String) (calls : ℕ)
    (trace0 : List Strategy) :
    (jinaFallback r hSnap tried searchUrl calls trace0).trace = trace0
      ∧ (jinaFallback r hSnap tried searchUrl calls trace0).stage = none
      ∧ (jinaFallback r hSnap tried searchUrl calls trace0).cache = r.c
      ∧ ((jinaFallback r hSnap tried searchUrl calls trace0).snapshot.averageRating = none →
          (jinaFallback r hSnap tried searchUrl calls trace0).snapshot.reviewCount = none →
          (jinaFallback r hSnap tried searchUrl calls trace0).snapshot = notFoundSnapshot)
      ∧ SaneSnap (jinaFallback r hSnap tried searchUrl calls trace0).snapshot := by
  simp only [jinaFallback]
  split <;> split
  · exact ⟨rfl, rfl, rfl, fun _ _ => rfl, saneSnap_notFound⟩
  · next hnul => exact ⟨rfl, rfl, rfl, fun hra hrc => absurd ⟨hra, hrc⟩ hnul,
      saneSnap_sanitize _ _ _ _⟩
  · exact ⟨rfl, rfl, rfl, fun _ _ => rfl, saneSnap_notFound⟩
  · next hnul => exact ⟨rfl, rfl, rfl, fun hra hrc => absurd ⟨hra, hrc⟩ hnul,
      saneSnap_sanitize _ _ _ _⟩

theorem drop4_cascade :
    cascadeList.drop 4
      = ([Strategy.jinaMain] ++ [Strategy.jinaRelaxed]) ++ [Strategy.jinaLoose] := rfl

theorem jinaStages_inv (r : ResolveCtx) (hSnap : Option ReviewSnapshot)
    (tried : List String) (searchUrl : Option String) (calls : ℕ)
    (trace0 : List Strategy) :
    StageInv r 4 trace0 (jinaStages r hSnap tried searchUrl calls trace0) := by
  simp only [jinaStages]
  split
  case h_1 snap1 h1 =>
    have hspec := fetchViaJina_some_spec _ _ _ _ _ _ _ h1
    have hnz : ¬ ((fetchViaJina r.w r.query r.idctx.identityTokens
        r.idctx.uniqueRequired r.idctx.minRequired "jina_text").2 = 0) := by
      intro hz
      rw [fetchViaJina_zero_calls _ _ _ _ _ _ hz] at h1
      exact Option.noConfusion h1
    rw [if_neg hnz]
    refine ⟨[.jinaMain], rfl, by decide, ?_, ?_, hspec.2, ?_, ?_, ?_⟩
    · intro s hs
      obtain rfl : Strategy.jinaMain = s := Option.some.inj hs
      exact ⟨rfl, Or.inr hspec.1⟩
    · intro _ hrc
      exact absurd hrc hspec.1
    · intro s hs hle
      obtain rfl : Strategy.jinaMain = s := Option.some.inj hs
      exact absurd hle (by decide)
    · intro s hs _
      rfl
    · intro hs
      exact Option.noConfusion hs
  case h_2 h1 =>
    split
    case h_1 snap2 h2 =>
      have hmr : r.idctx.minRequired > 1 := by
        by_contra hc
        rw [if_neg hc] at h2
        exact Option.noConfusion h2
      rw [if_pos hmr] at h2
      have hspec := fetchViaJina_some_spec _ _ _ _ _ _ _ h2
      have hnz2 : ¬ ((fetchViaJina r.w r.query r.idctx.identityTokens
          (r.idctx.uniqueRequired.take 1) (r.idctx.uniqueRequired.take 1).length
          "jina_text_relaxed").2 = 0) := by
        intro hz
        rw [fetchViaJina_zero_calls _ _ _ _ _ _ hz] at h2
        exact Option.noConfusion h2
      rw [if_pos hmr, if_neg hnz2]
      refine ⟨(if (fetchViaJina r.w r.query r.idctx.identityTokens
          r.idctx.uniqueRequired r.idctx.minRequired "jina_text").2 = 0 then []
          else [Strategy.jinaMain]) ++ [Strategy.jinaRelaxed],
        by simp, ?_, ?_, ?_, hspec.2, ?_, ?_, ?_⟩
      · rw [drop4_cascade, List.append_assoc]
        exact List.Sublist.append (ite_nil_sublist _ _) (by decide)
      · intro s hs
        obtain rfl : Strategy.jinaRelaxed = s := Option.some.inj hs
        exact ⟨List.getLast?_concat _, Or.inr hspec.1⟩
      · intro _ hrc
        exact absurd hrc hspec.1
      · intro s hs hle
        obtain rfl : Strategy.jinaRelaxed = s := Option.some.inj hs
        exact absurd hle (by decide)
      · intro s hs _
        rfl
      · intro hs
        exact Option.noConfusion hs
    case h_2 h2 =>
      split
      case h_1 snap3 h3 =>
        have hl : ¬ ((if r.queryTokens.isEmpty then r.idctx.identityTokens
            else r.queryTokens).isEmpty = true) := by
          by_contra hc
          rw [if_pos hc] at h3
          exact Option.noConfusion h3
        rw [if_neg hl] at h3
        have hspec := fetchViaJina_some_spec _ _ _ _ _ _ _ h3
        have hnz3 : ¬ ((fetchViaJina r.w r.query
            (if r.queryTokens.isEmpty then r.idctx.identityTokens else r.queryTokens)
            [] 0 "jina_text_loose").2 = 0) := by
          intro hz
          rw [fetchViaJina_zero_calls _ _ _ _ _ _ hz] at h3
          exact Option.noConfusion h3
        rw [if_neg hl, if_neg hnz3]
        refine ⟨((if (fetchViaJina r.w r.query r.idctx.identityTokens
            r.idctx.uniqueRequired r.idctx.minRequired "jina_text").2 = 0 then []
            else [Strategy.jinaMain])
          ++ (if (if r.idctx.minRequired > 1 then
              fetchViaJina r.w r.query r.idctx.identityTokens
                (r.idctx.uniqueRequired.take 1) (r.idctx.uniqueRequired.take 1).length
                "jina_text_relaxed"
            else (none, 0)).2 = 0 then [] else [Strategy.jinaRelaxed]))
          ++ [Strategy.jinaLoose],
          by simp, ?_, ?_, ?_, hspec.2, ?_, ?_, ?_⟩
        · rw [drop4_cascade]
          exact List.Sublist.append
            (List.Sublist.append (ite_nil_sublist _ _) (ite_nil_sublist _ _))
            (List.Sublist.refl _)
        · intro s hs
          obtain rfl : Strategy.jinaLoose = s := Option.some.inj hs
          exact ⟨List.getLast?_concat _, Or.inr hspec.1⟩
        · intro _ hrc
          exact absurd hrc hspec.1
        · intro s hs hle
          obtain rfl : Strategy.jinaLoose = s := Option.some.inj hs
          exact absurd hle (by decide)
        · intro s hs _
          rfl
        · intro hs
          exact Option.noConfusion hs
      case h_2 h3 =>
        obtain ⟨ht, hs, hc, hn, hsane⟩ := jinaFallback_inv r hSnap
          (tried) (searchUrl) _ _
        refine ⟨_, by rw [ht, List.append_assoc, List.append_assoc], ?_, ?_, hn, hsane,
          ?_, ?_, fun _ => hc⟩
        · rw [drop4_cascade, List.append_assoc]
          exact List.Sublist.append (ite_nil_sublist _ _)
            (List.Sublist.append (ite_nil_sublist _ _) (ite_nil_sublist _ _))
        · intro s hss
          rw [hs] at hss
          exact Option.noConfusion hss
        · intro s hss hle
          rw [hs] at hss
          exact Option.noConfusion hss
        · intro s hss hge
          rw [hs] at hss
          exact Option.noConfusion hss

theorem apiStage_inv (r : ResolveCtx) (hSnap : Option ReviewSnapshot)
    (tried : List String) (searchUrl : Option String) (calls : ℕ)
    (trace0 : List Strategy) :
    StageInv r 3 trace0 (apiStage r hSnap tried searchUrl calls trace0) := by
  simp only [apiStage]
  split
  case h_1 =>
    exact stageInv_mono (jinaStages_inv r hSnap tried searchUrl calls trace0) (by omega)
  case h_2 u hu =>
    split
    case isTrue hcond =>
      split
      case h_1 snap hap =>
        split
        case isTrue hnn =>
          refine ⟨[.api], rfl, by decide, ?_, ?_,
            attemptPlace_some_sane _ _ _ _ _ hap,
            fun s hs _ => by obtain rfl : Strategy.api = s := Option.some.inj hs; rfl,
            fun s hs hge => by
              obtain rfl : Strategy.api = s := Option.some.inj hs
              exact absurd hge (by decide),
            fun hs => Option.noConfusion hs⟩
          · intro s hs
            obtain rfl : Strategy.api = s := Option.some.inj hs
            exact ⟨rfl, hnn⟩
          · intro hra hrc
            rcases hnn with hnn | hnn
            · exact absurd hra hnn
            · exact absurd hrc hnn
        case isFalse hnn =>
          exact stageInv_prepend (jinaStages_inv r hSnap _ searchUrl _ _)
            (by decide) (by decide)
      case h_2 hap =>
        exact stageInv_prepend (jinaStages_inv r hSnap _ searchUrl _ _)
          (by decide) (by decide)
    case isFalse hcond =>
      exact stageInv_mono (jinaStages_inv r hSnap tried searchUrl calls trace0) (by omega)

theorem serpStage_inv (r : ResolveCtx) (hSnap : Option ReviewSnapshot)
    (tried : List String) (calls : ℕ) (trace0 : List Strategy) :
    StageInv r 2 trace0 (serpStage r hSnap tried calls trace0) := by
  simp only [serpStage]
  split
  case h_1 =>
    exact stageInv_prepend (apiStage_inv r hSnap tried none _ _) (by decide) (by decide)
  case h_2 sp hsp =>
    split
    case h_1 =>
      exact stageInv_prepend (apiStage_inv r hSnap tried (some sp.url) _ _)
        (by decide) (by decide)
    case h_2 u hu =>
      split
      case h_1 snap hap =>
        split
        case isTrue hnn =>
          refine ⟨[.serp], rfl, by decide, ?_, ?_,
            attemptPlace_some_sane _ _ _ _ _ hap,
            fun s hs _ => by obtain rfl : Strategy.serp = s := Option.some.inj hs; rfl,
            fun s hs hge => by
              obtain rfl : Strategy.serp = s := Option.some.inj hs
              exact absurd hge (by decide),
            fun hs => Option.noConfusion hs⟩
          · intro s hs
            obtain rfl : Strategy.serp = s := Option.some.inj hs
            exact ⟨rfl, hnn⟩
          · intro hra hrc
            rcases hnn with hnn | hnn
            · exact absurd hra hnn
            · exact absurd hrc hnn
        case isFalse hnn =>
          exact stageInv_prepend (apiStage_inv r hSnap _ (some sp.url) _ _)
            (by decide) (by decide)
      case h_2 hap =>
        exact stageInv_prepend (apiStage_inv r hSnap _ (some sp.url) _ _)
          (by decide) (by decide)

theorem providedStage_inv (r : ResolveCtx) (hSnap : Option ReviewSnapshot)
    (tried : List String) (calls : ℕ) (trace0 : List Strategy) :
    StageInv r 1 trace0 (providedStage r hSnap tried calls trace0) := by
  simp only [providedStage]
  split
  case h_1 =>
    exact stageInv_mono (serpStage_inv r hSnap tried calls trace0) (by omega)
  case h_2 u hu =>
    split
    case isTrue hcanon =>
      split
      case h_1 snap hap =>
        split
        case isTrue hnn =>
          refine ⟨[.provided], rfl, by decide, ?_, ?_,
            attemptPlace_some_sane _ _ _ _ _ hap,
            fun s hs _ => by obtain rfl : Strategy.provided = s := Option.some.inj hs; rfl,
            fun s hs hge => by
              obtain rfl : Strategy.provided = s := Option.some.inj hs
              exact absurd hge (by decide),
            fun hs => Option.noConfusion hs⟩
          · intro s hs
            obtain rfl : Strategy.provided = s := Option.some.inj hs
            exact ⟨rfl, hnn⟩
          · intro hra hrc
            rcases hnn with hnn | hnn
            · exact absurd hra hnn
            · exact absurd hrc hnn
        case isFalse hnn =>
          exact stageInv_prepend (serpStage_inv r hSnap _ _ _) (by decide) (by decide)
      case h_2 hap =>
        exact stageInv_prepend (serpStage_inv r hSnap _ _ _) (by decide) (by decide)
    case isFalse hcanon =>
      exact stageInv_mono (serpStage_inv r hSnap tried calls trace0) (by omega)

theorem stageInv_top {r : ResolveCtx} {lo : ℕ} {trace0 : List Strategy}
    {out : ResolveOutcome}
    (h : StageInv r lo trace0 out) (h0 : trace0.Sublist (cascadeList.take lo)) :
    out.trace.Sublist cascadeList
      ∧ (∀ s, out.stage = some s → out.trace.getLast? = some s
          ∧ (out.snapshot.averageRating ≠ none ∨ out.snapshot.reviewCount ≠ none))
      ∧ (out.snapshot.averageRating = none → out.snapshot.reviewCount = none →
          out.snapshot = notFoundSnapshot)
      ∧ SaneSnap out.snapshot
      ∧ (∀ s, out.stage = some s → strategyRank s ≤ 3 →
          out.cache = cacheSet r.c r.cacheKey ⟨out.snapshot, r.now + r.ttl⟩)
      ∧ (∀ s, out.stage = some s → 4 ≤ strategyRank s → out.cache = r.c)
      ∧ (out.stage = none → out.cache = r.c) := by
  obtain ⟨tr2, h1, h2, h3, h4, h5, h6, h7, h8⟩ := h
  refine ⟨?_, ?_, h4, h5, h6, h7, h8⟩
  · rw [h1]
    have hsplit : cascadeList = cascadeList.take lo ++ cascadeList.drop lo :=
      (List.take_append_drop _ _).symm
    rw [hsplit]
    exact List.Sublist.append h0 h2
  · intro s hs
    obtain ⟨hlast, hnn⟩ := h3 s hs
    refine ⟨?_, hnn⟩
    rw [h1, List.getLast?_append, hlast]
    rfl

theorem headlessCase_inv (r : ResolveCtx) (h : HeadlessExtraction) (calls : ℕ) :
    StageInv r 0 [] (headlessCase r h calls [Strategy.headless]) := by
  simp only [headlessCase]
  cases hmb : matchesIdentityTokens r.idctx (some (String.intercalate " | "
      (([h.name, h.title, h.address].filterMap id).filter fun s => s ≠ ""))) with
  | false =>
    simp only [hmb, Bool.false_eq_true, false_and, if_false]
    exact @stageInv_prepend r 0 1 [] Strategy.headless _
      (providedStage_inv r _ _ _ [Strategy.headless]) (by decide) (by decide)
  | true =>
    simp only [hmb, eq_self_iff_true, if_true, true_and]
    split
    case isTrue hcc =>
      refine ⟨[.headless], rfl, by decide, ?_, ?_, saneSnap_sanitize _ _ _ _,
        fun s hs _ => by obtain rfl : Strategy.headless = s := Option.some.inj hs; rfl,
        fun s hs hge => by
          obtain rfl : Strategy.headless = s := Option.some.inj hs
          exact absurd hge (by decide),
        fun hs => Option.noConfusion hs⟩
      · intro s hs
        obtain rfl : Strategy.headless = s := Option.some.inj hs
        exact ⟨rfl, hcc⟩
      · intro hra hrc
        rcases hcc with hnn | hnn
        · exact absurd hra hnn
        · exact absurd hrc hnn
    case isFalse hcc =>
      exact @stageInv_prepend r 0 1 [] Strategy.headless _
        (providedStage_inv r _ _ _ [Strategy.headless]) (by decide) (by decide)

theorem resolveUncached_inv (w : MapsWorld) (ttl now : ℤ) (c : MapsCache)
    (q : String) (pu cn : Option String) :
    (resolveUncached w ttl now c q pu cn).trace.Sublist cascadeList
      ∧ (∀ s, (resolveUncached w ttl now c q pu cn).stage = some s →
          (resolveUncached w ttl now c q pu cn).trace.getLast? = some s
            ∧ ((resolveUncached w ttl now c q pu cn).snapshot.averageRating ≠ none
              ∨ (resolveUncached w ttl now c q pu cn).snapshot.reviewCount ≠ none))
      ∧ ((resolveUncached w ttl now c q pu cn).snapshot.averageRating = none →
          (resolveUncached w ttl now c q pu cn).snapshot.reviewCount = none →
          (resolveUncached w ttl now c q pu cn).snapshot = notFoundSnapshot)
      ∧ SaneSnap (resolveUncached w ttl now c q pu cn).snapshot
      ∧ (∀ s, (resolveUncached w ttl now c q pu cn).stage = some s →
          strategyRank s ≤ 3 →
          (resolveUncached w ttl now c q pu cn).cache
            = cacheSet c (mapsCacheKey q pu cn)
                ⟨(resolveUncached w ttl now c q pu cn).snapshot, now + ttl⟩)
      ∧ (∀ s, (resolveUncached w ttl now c q pu cn).stage = some s →
          4 ≤ strategyRank s → (resolveUncached w ttl now c q pu cn).cache = c)
      ∧ ((resolveUncached w ttl now c q pu cn).stage = none →
          (resolveUncached w ttl now c q pu cn).cache = c) := by
  simp only [resolveUncached]
  split
  case h_1 hnone =>
    exact stageInv_top (providedStage_inv _ none [] _ _)
      (by split <;> simp [cascadeList])
  case h_2 h hsome =>
    have hen : w.headlessEnabled = true := by
      cases henb : w.headlessEnabled
      · rw [henb] at hsome
        simp at hsome
      · rfl
    simp only [hen, eq_self_iff_true, if_true]
    exact stageInv_top (headlessCase_inv _ h _) (by simp [cascadeList])

theorem getMapsSnapshot_hit (w : MapsWorld) (ttl now : ℤ) (c : MapsCache)
    (q : String) (pu cn : Option String) (e : MapsCacheEntry)
    (hget : cacheGet c (mapsCacheKey q pu cn) = some e)
    (hfresh : now < e.expiresAt)
    (hnn : e.snapshot.averageRating ≠ none ∨ e.snapshot.reviewCount ≠ none) :
    getMapsSnapshot w ttl now c q pu cn
      = { snapshot := e.snapshot, cache := c, calls := 0, trace := [], stage := none } := by
  simp only [getMapsSnapshot, hget]
  rw [if_pos ⟨hfresh, hnn⟩]

theorem getMapsSnapshot_miss_none (w : MapsWorld) (ttl now : ℤ) (c : MapsCache)
    (q : String) (pu cn : Option String)
    (hget : cacheGet c (mapsCacheKey q pu cn) = none) :
    getMapsSnapshot w ttl now c q pu cn = resolveUncached w ttl now c q pu cn := by
  simp only [getMapsSnapshot, hget]

theorem getMapsSnapshot_miss_stale (w : MapsWorld) (ttl now : ℤ) (c : MapsCache)
    (q : String) (pu cn : Option String) (e : MapsCacheEntry)
    (hget : cacheGet c (mapsCacheKey q pu cn) = some e)
    (hcond : ¬ (now < e.expiresAt
      ∧ (e.snapshot.averageRating ≠ none ∨ e.snapshot.reviewCount ≠ none))) :
    getMapsSnapshot w ttl now c q pu cn = resolveUncached w ttl now c q pu cn := by
  simp only [getMapsSnapshot, hget]
  rw [if_neg hcond]

theorem cacheGet_cacheSet (c : MapsCache) (k : String) (e : MapsCacheEntry) :
    cacheGet (cacheSet c k e) k = some e := by
  simp [cacheGet, cacheSet]

theorem cacheSet_mem {c : MapsCache} {k : String} {e : MapsCacheEntry}
    {p : String × MapsCacheEntry} (hp : p ∈ cacheSet c k e) :
    p = (k, e) ∨ p ∈ c := by
  rcases List.mem_cons.mp hp with hp | hp
  · exact Or.inl hp
  · exact Or.inr (List.mem_of_mem_filter hp)

theorem cacheGet_mem {c : MapsCache} {k : String} {e : MapsCacheEntry}
    (h : cacheGet c k = some e) : ∃ p ∈ (c : List (String × MapsCacheEntry)), p.2 = e := by
  simp only [cacheGet, Option.map_eq_some'] at h
  obtain ⟨p, hp, hpe⟩ := h
  exact ⟨p, List.mem_of_find?_eq_some hp, hpe⟩

theorem cascade_chain : List.Chain' (· < ·) (cascadeList.map strategyRank) := by
  simp [cascadeList, strategyRank, List.chain'_cons]

/-! ### C6 -/

/-- Counterexample world for C6: the provided URL redirects to a canonical
listing whose page carries a confident, identity-matching ld+json rating, and
the rendering fallback is enabled and also yields a confident,
identity-matching extraction. -/
def c6Page : PlacePage :=
  { url := "https://www.google.com/maps/place/alpine-roofing"
    titleRaw := some "Alpine Roofing - Google Maps"
    headHtml := ""
    ldjson := some { rating := 46/10, reviewCount := some 128 }
    aria := none
    plainText := none }

/-- The headless extraction of the C6 counterexample world. -/
def c6Headless : HeadlessExtraction :=
  { url := "https://www.google.com/maps/place/alpine-roofing"
    rating := some (45/10)
    reviewCount := some 120
    strategy := "headless_place"
    name := some "Alpine Roofing"
    title := none
    address := none }

/-- The C6 counterexample world. -/
def c6World : MapsWorld :=
  { redirect := fun u =>
      if u = "https://prov" then some "https://www.google.com/maps/place/alpine-roofing"
      else none
    placePage := fun u =>
      if u = "https://www.google.com/maps/place/alpine-roofing" then some c6Page else none
    searchPage := none
    headlessEnabled := true
    headlessResult := fun _ => some c6Headless
    jinaCandidates := none }

/-- The identity context `getMapsSnapshot` derives for the C6 query, computed
by the same formulas as `resolveUncached`. -/
def c6Ctx : IdCtx :=
  let queryTokens := tokenizeQuery "alpine roofing denver"
  let idt := deriveIdentityTokens (some "Alpine Roofing")
  let companyTokens := idt.1
  let identityTokens := if companyTokens.isEmpty then queryTokens else companyTokens
  let provisionalRequired := if idt.2.isEmpty then companyTokens else idt.2
  let uniqueRequired := dedupKeep provisionalRequired
  let minRequired := if uniqueRequired.length ≥ 2 then 2 else uniqueRequired.length
  { identityTokens := identityTokens, uniqueRequired := uniqueRequired
    minRequired := minRequired }

/-- **C6 counterexample.**  At this concrete input the provided canonical URL
is applicable and — attempted directly — yields a confident identity-verified
snapshot (`provided:ldjson`, rating non-null), yet the resolver attempts the
rendering-based fallback first and returns its result: the first (and only)
attempted strategy is `headless`, not `provided`.  This falsifies the claim
that the provided-URL strategy is attempted first and short-circuits the
cascade. -/
theorem c6_counterexample :
    (getMapsSnapshot c6World 1000000 0 [] "alpine roofing denver"
        (some "https://prov") (some "Alpine Roofing")).trace.head?
        = some Strategy.headless
      ∧ (getMapsSnapshot c6World 1000000 0 [] "alpine roofing denver"
          (some "https://prov") (some "Alpine Roofing")).stage = some Strategy.headless
      ∧ (getMapsSnapshot c6World 1000000 0 [] "alpine roofing denver"
          (some "https://prov") (some "Alpine Roofing")).snapshot.method = "headless_place"
      ∧ strIncludes "https://www.google.com/maps/place/alpine-roofing" "/maps/place" = true
      ∧ ((attemptPlace c6World c6Ctx "https://www.google.com/maps/place/alpine-roofing"
          "provided").1.map (fun s => s.method)) = some "provided:ldjson"
      ∧ ((attemptPlace c6World c6Ctx "https://www.google.com/maps/place/alpine-roofing"
          "provided").1.bind (fun s => s.averageRating)).isSome = true
      ∧ (getMapsSnapshot c6World 1000000 0 [] "alpine roofing denver"
          (some "https://prov") (some "Alpine Roofing")).snapshot.method
        ≠ "provided:ldjson" := by
  exact ⟨rfl, rfl, rfl, rfl, by decide, by decide, by decide⟩

/-- **C6 (amended).**  The resolution strategies are attempted in the order
the code fixes — (1) the rendering-based fallback (when enabled, using a
canonical-looking provided/API URL as a hint), (2) the provided canonical
URL, (3) the search-page scrape, (4) the API-redirect probe, (5) the three
text-extraction fallbacks — each at most once, short-circuiting at the first
strategy that yields a confident identity-verified result: the attempt trace
is strictly increasing in cascade rank, and the strategy that produced the
returned snapshot is always the last one attempted, with a non-null rating
or review count. -/
theorem c6_amended_order (w : MapsWorld) (ttl now : ℤ) (c : MapsCache)
    (q : String) (pu cn : Option String) :
    List.Chain' (· < ·)
        ((getMapsSnapshot w ttl now c q pu cn).trace.map strategyRank)
      ∧ ∀ s, (getMapsSnapshot w ttl now c q pu cn).stage = some s →
          (getMapsSnapshot w ttl now c q pu cn).trace.getLast? = some s
            ∧ ((getMapsSnapshot w ttl now c q pu cn).snapshot.averageRating ≠ none
              ∨ (getMapsSnapshot w ttl now c q pu cn).snapshot.reviewCount ≠ none) := by
  cases hget : cacheGet c (mapsCacheKey q pu cn) with
  | none =>
    rw [getMapsSnapshot_miss_none w ttl now c q pu cn hget]
    obtain ⟨h1, h2, _⟩ := resolveUncached_inv w ttl now c q pu cn
    exact ⟨cascade_chain.sublist (h1.map strategyRank), h2⟩
  | some e =>
    by_cases hcond : now < e.expiresAt
        ∧ (e.snapshot.averageRating ≠ none ∨ e.snapshot.reviewCount ≠ none)
    · rw [getMapsSnapshot_hit w ttl now c q pu cn e hget hcond.1 hcond.2]
      exact ⟨List.chain'_nil, fun s hs => Option.noConfusion hs⟩
    · rw [getMapsSnapshot_miss_stale w ttl now c q pu cn e hget hcond]
      obtain ⟨h1, h2, _⟩ := resolveUncached_inv w ttl now c q pu cn
      exact ⟨cascade_chain.sublist (h1.map strategyRank), h2⟩

/-- Witness for C6 (amended) at the counterexample input: the trace ranks are
strictly increasing and the producing strategy is the last attempted. -/
theorem c6_amended_witness :
    List.Chain' (· < ·)
        ((getMapsSnapshot c6World 1000000 0 [] "alpine roofing denver"
          (some "https://prov") (some "Alpine Roofing")).trace.map strategyRank)
      ∧ ∀ s, (getMapsSnapshot c6World 1000000 0 [] "alpine roofing denver"
            (some "https://prov") (some "Alpine Roofing")).stage = some s →
          (getMapsSnapshot c6World 1000000 0 [] "alpine roofing denver"
            (some "https://prov") (some "Alpine Roofing")).trace.getLast? = some s
            ∧ ((getMapsSnapshot c6World 1000000 0 [] "alpine roofing denver"
                (some "https://prov") (some "Alpine Roofing")).snapshot.averageRating ≠ none
              ∨ (getMapsSnapshot c6World 1000000 0 [] "alpine roofing denver"
                (some "https://prov") (some "Alpine Roofing")).snapshot.reviewCount ≠ none) :=
  c6_amended_order c6World 1000000 0 [] "alpine roofing denver"
    (some "https://prov") (some "Alpine Roofing")

/-! ### C7 -/

/-- The empty network world: every fetch fails or matches nothing, the
rendering fallback is disabled, and the text fallback yields no
candidates. -/
def emptyMapsWorld : MapsWorld :=
  { redirect := fun _ => none
    placePage := fun _ => none
    searchPage := none
    headlessEnabled := false
    headlessResult := fun _ => none
    jinaCandidates := none }

/-- **C7.**  Every resolve call in which no strategy yields a rating or a
review count returns normally (the embedding is a total function, mirroring
the source's catch-all fallthrough) with exactly the sentinel snapshot
`{averageRating := none, reviewCount := none, sourceUrl := none,
method := "not_found"}`. -/
theorem c7_not_found_sentinel (w : MapsWorld) (ttl now : ℤ) (c : MapsCache)
    (q : String) (pu cn : Option String)
    (hr : (getMapsSnapshot w ttl now c q pu cn).snapshot.averageRating = none)
    (hc : (getMapsSnapshot w ttl now c q pu cn).snapshot.reviewCount = none) :
    (getMapsSnapshot w ttl now c q pu cn).snapshot = notFoundSnapshot := by
  cases hget : cacheGet c (mapsCacheKey q pu cn) with
  | none =>
    rw [getMapsSnapshot_miss_none w ttl now c q pu cn hget] at hr hc ⊢
    exact (resolveUncached_inv w ttl now c q pu cn).2.2.1 hr hc
  | some e =>
    by_cases hcond : now < e.expiresAt
        ∧ (e.snapshot.averageRating ≠ none ∨ e.snapshot.reviewCount ≠ none)
    · rw [getMapsSnapshot_hit w ttl now c q pu cn e hget hcond.1 hcond.2] at hr hc
      rcases hcond.2 with hnn | hnn
      · exact absurd hr hnn
      · exact absurd hc hnn
    · rw [getMapsSnapshot_miss_stale w ttl now c q pu cn e hget hcond] at hr hc ⊢
      exact (resolveUncached_inv w ttl now c q pu cn).2.2.1 hr hc

/-- Witness for C7: on the empty world the resolver finds nothing, and the
returned snapshot is exactly the sentinel. -/
theorem c7_witness :
    (getMapsSnapshot emptyMapsWorld 1000000 0 [] "alpine roofing denver"
        none (some "Alpine Roofing")).snapshot = notFoundSnapshot :=
  c7_not_found_sentinel emptyMapsWorld 1000000 0 [] "alpine roofing denver"
    none (some "Alpine Roofing") rfl rfl

/-! ### C8 -/

/-- **C8 counterexample.**  On a world where every strategy comes up empty,
the first resolve returns the not-found sentinel without writing any cache
entry (the sentinel is returned directly, never inserted), so an identical
second call within the TTL re-runs the whole cascade: it issues 5 underlying
network calls, not at most one.  This falsifies the claim's first half (the
second half — that a not-found outcome is not served from a negative cache
entry — is what actually holds, by non-insertion rather than eviction). -/
theorem c8_counterexample :
    (getMapsSnapshot emptyMapsWorld 1000000 0 [] "alpine roofing denver"
        none (some "Alpine Roofing")).snapshot.method = "not_found"
      ∧ (getMapsSnapshot emptyMapsWorld 1000000 0 [] "alpine roofing denver"
          none (some "Alpine Roofing")).cache = []
      ∧ (getMapsSnapshot emptyMapsWorld 1000000 1
          (getMapsSnapshot emptyMapsWorld 1000000 0 [] "alpine roofing denver"
            none (some "Alpine Roofing")).cache
          "alpine roofing denver" none (some "Alpine Roofing")).calls = 5
      ∧ ¬ (getMapsSnapshot emptyMapsWorld 1000000 1
          (getMapsSnapshot emptyMapsWorld 1000000 0 [] "alpine roofing denver"
            none (some "Alpine Roofing")).cache
          "alpine roofing denver" none (some "Alpine Roofing")).calls ≤ 1 :=
  ⟨rfl, rfl, rfl, by decide⟩

/-- **C8 (amended).**  Results are cached with TTL only for the four
page-level strategies (rendering fallback, provided URL, search scrape, API
probe — cascade rank ≤ 3): after such a first call, an identical second call
within the TTL is a pure cache hit, returning the identical snapshot with
zero underlying network calls.  Text-fallback results and runs that end
without a producing strategy (including the not-found sentinel) are never
inserted into the cache, so an identical subsequent query is retried in full
rather than served from a negative cache entry. -/
theorem c8_cache_hit_and_negative_retry (w : MapsWorld) (ttl now : ℤ)
    (c : MapsCache) (q : String) (pu cn : Option String) :
    (∀ s, (getMapsSnapshot w ttl now c q pu cn).stage = some s →
        strategyRank s ≤ 3 → ∀ t2 : ℤ, t2 < now + ttl →
        getMapsSnapshot w ttl t2 (getMapsSnapshot w ttl now c q pu cn).cache q pu cn
          = { snapshot := (getMapsSnapshot w ttl now c q pu cn).snapshot
              cache := (getMapsSnapshot w ttl now c q pu cn).cache
              calls := 0, trace := [], stage := none })
      ∧ (∀ s, (getMapsSnapshot w ttl now c q pu cn).stage = some s →
          4 ≤ strategyRank s → (getMapsSnapshot w ttl now c q pu cn).cache = c)
      ∧ ((getMapsSnapshot w ttl now c q pu cn).stage = none →
          (getMapsSnapshot w ttl now c q pu cn).cache = c) := by
  cases hget : cacheGet c (mapsCacheKey q pu cn) with
  | none =>
    rw [getMapsSnapshot_miss_none w ttl now c q pu cn hget]
    obtain ⟨-, h2, -, -, h6, h7, h8⟩ := resolveUncached_inv w ttl now c q pu cn
    refine ⟨?_, h7, h8⟩
    intro s hs hrank t2 ht2
    have hcache := h6 s hs hrank
    have hnn := (h2 s hs).2
    have hget2 : cacheGet (resolveUncached w ttl now c q pu cn).cache
        (mapsCacheKey q pu cn)
        = some ⟨(resolveUncached w ttl now c q pu cn).snapshot, now + ttl⟩ := by
      rw [hcache]
      exact cacheGet_cacheSet _ _ _
    exact getMapsSnapshot_hit w ttl t2 _ q pu cn _ hget2 ht2 hnn
  | some e =>
    by_cases hcond : now < e.expiresAt
        ∧ (e.snapshot.averageRating ≠ none ∨ e.snapshot.reviewCount ≠ none)
    · rw [getMapsSnapshot_hit w ttl now c q pu cn e hget hcond.1 hcond.2]
      exact ⟨fun s hs => Option.noConfusion hs, fun s hs => Option.noConfusion hs,
        fun _ => rfl⟩
    · rw [getMapsSnapshot_miss_stale w ttl now c q pu cn e hget hcond]
      obtain ⟨-, h2, -, -, h6, h7, h8⟩ := resolveUncached_inv w ttl now c q pu cn
      refine ⟨?_, h7, h8⟩
      intro s hs hrank t2 ht2
      have hcache := h6 s hs hrank
      have hnn := (h2 s hs).2
      have hget2 : cacheGet (resolveUncached w ttl now c q pu cn).cache
          (mapsCacheKey q pu cn)
          = some ⟨(resolveUncached w ttl now c q pu cn).snapshot, now + ttl⟩ := by
        rw [hcache]
        exact cacheGet_cacheSet _ _ _
      exact getMapsSnapshot_hit w ttl t2 _ q pu cn _ hget2 ht2 hnn

/-- Witness for C8 (amended): on the confident C6 world the first run ends at
the rank-0 rendering stage, and the second identical run 5 ms later is a pure
cache hit with zero calls and the identical snapshot. -/
theorem c8_amended_witness :
    getMapsSnapshot c6World 1000000 5
        (getMapsSnapshot c6World 1000000 0 [] "alpine roofing denver"
          (some "https://prov") (some "Alpine Roofing")).cache
        "alpine roofing denver" (some "https://prov") (some "Alpine Roofing")
      = { snapshot := (getMapsSnapshot c6World 1000000 0 [] "alpine roofing denver"
            (some "https://prov") (some "Alpine Roofing")).snapshot
          cache := (getMapsSnapshot c6World 1000000 0 [] "alpine roofing denver"
            (some "https://prov") (some "Alpine Roofing")).cache
          calls := 0, trace := [], stage := none } :=
  (c8_cache_hit_and_negative_retry c6World 1000000 0 [] "alpine roofing denver"
      (some "https://prov") (some "Alpine Roofing")).1
    Strategy.headless rfl (by decide) 5 (by decide)

/-! ### C10 -/

/-- **C10.**  Every `ReviewSnapshot` the resolver returns — on the cached,
rendering, static, text-fallback and sentinel exit paths alike — has
`reviewCount` either null or clamped to `[0, MAX_REVIEW_COUNT]` and
`averageRating` either null or an exact number of tenths (rounded to one
decimal place); the resolver also preserves this shape for every entry of
the cache it returns, so cached snapshots served later are sane as well. -/
theorem c10_snapshots_sanitized (w : MapsWorld) (ttl now : ℤ) (c : MapsCache)
    (q : String) (pu cn : Option String)
    (hc : ∀ p ∈ c, SaneSnap (p.2).snapshot) :
    SaneSnap (getMapsSnapshot w ttl now c q pu cn).snapshot
      ∧ ∀ p ∈ (getMapsSnapshot w ttl now c q pu cn).cache,
          SaneSnap (p.2).snapshot := by
  cases hget : cacheGet c (mapsCacheKey q pu cn) with
  | none =>
    rw [getMapsSnapshot_miss_none w ttl now c q pu cn hget]
    obtain ⟨-, -, -, h5, h6, h7, h8⟩ := resolveUncached_inv w ttl now c q pu cn
    refine ⟨h5, ?_⟩
    cases hstage : (resolveUncached w ttl now c q pu cn).stage with
    | none =>
      rw [h8 hstage]
      exact hc
    | some s =>
      by_cases hrank : strategyRank s ≤ 3
      · rw [h6 s hstage hrank]
        intro p hp
        rcases cacheSet_mem hp with rfl | hp
        · exact h5
        · exact hc p hp
      · rw [h7 s hstage (by omega)]
        exact hc
  | some e =>
    by_cases hcond : now < e.expiresAt
        ∧ (e.snapshot.averageRating ≠ none ∨ e.snapshot.reviewCount ≠ none)
    · rw [getMapsSnapshot_hit w ttl now c q pu cn e hget hcond.1 hcond.2]
      obtain ⟨p, hp, hpe⟩ := cacheGet_mem hget
      exact ⟨hpe ▸ hc p hp, hc⟩
    · rw [getMapsSnapshot_miss_stale w ttl now c q pu cn e hget hcond]
      obtain ⟨-, -, -, h5, h6, h7, h8⟩ := resolveUncached_inv w ttl now c q pu cn
      refine ⟨h5, ?_⟩
      cases hstage : (resolveUncached w ttl now c q pu cn).stage with
      | none =>
        rw [h8 hstage]
        exact hc
      | some s =>
        by_cases hrank : strategyRank s ≤ 3
        · rw [h6 s hstage hrank]
          intro p hp
          rcases cacheSet_mem hp with rfl | hp
          · exact h5
          · exact hc p hp
        · rw [h7 s hstage (by omega)]
          exact hc

/-- Witness for C10 at the confident C6 world starting from the empty
cache. -/
theorem c10_witness :
    SaneSnap (getMapsSnapshot c6World 1000000 0 [] "alpine roofing denver"
        (some "https://prov") (some "Alpine Roofing")).snapshot
      ∧ ∀ p ∈ (getMapsSnapshot c6World 1000000 0 [] "alpine roofing denver"
          (some "https://prov") (some "Alpine Roofing")).cache,
          SaneSnap (p.2).snapshot :=
  c10_snapshots_sanitized c6World 1000000 0 [] "alpine roofing denver"
    (some "https://prov") (some "Alpine Roofing") (by simp)

/-! ### C9 -/

/-- `/\\s+/g → " "`: collapse every whitespace run to a single space
(fuel-structural; fuel is the list length, which bounds the recursion). -/
def collapseWsFuel : ℕ → List Char → List Char
  | 0, _ => []
  | _, [] => []
  | n + 1, c :: rest =>
    if c.isWhitespace then ' ' :: collapseWsFuel n (rest.dropWhile Char.isWhitespace)
    else c :: collapseWsFuel n rest

/-- `normalizeKey(value)` (scoreLeads.ts lines 31-40): null/empty-falsy
handling, trim + lowercase, whitespace-run collapsing. -/
def normalizeKey (value : Option String) : Option String :=
  match value with
  | none => none
  | some v =>
    if v = "" then none
    else
      let trimmed := lowerStr (trimStr v)
      if trimmed = "" then none
      else some (String.mk (collapseWsFuel trimmed.data.length trimmed.data))

/-- `normalizeUrlKey(value)` (scoreLeads.ts lines 42-62): null/empty-falsy
handling and trim are explicit; the WHATWG `URL` canonicalisation inside the
`try` (hash stripped, tracking params removed, params sorted) is abstracted
as the total function `urlNorm` on the trimmed string — the `catch` branch
returns the trimmed string itself, so both branches are a total function of
it, and no claim depends on its internals. -/
def normalizeUrlKey (urlNorm : String → String) (value : Option String) :
    Option String :=
  match value with
  | none => none
  | some v =>
    if v = "" then none
    else
      let trimmed := trimStr v
      if trimmed = "" then none
      else some (urlNorm trimmed)

/-- The `reviewCacheKeys` set a lead derives (scoreLeads.ts lines 297-310):
`maps:`-, `company:`- and `query:`-prefixed normalized keys, in insertion
order, deduplicated (`Set` semantics). -/
def leadLookupKeys (urlNorm : String → String)
    (mapsUrl companyId lookupQuery : Option String) : List String :=
  let ks1 := match normalizeUrlKey urlNorm mapsUrl with
    | some u => ["maps:" ++ u]
    | none => []
  let ks2 := match normalizeKey companyId with
    | some cmp => ["company:" ++ cmp]
    | none => []
  let ks3 := match normalizeKey lookupQuery with
    | some qn => ["query:" ++ qn]
    | none => []
  dedupKeep (ks1 ++ ks2 ++ ks3)

/-- The module-level `reviewPromiseCache` and the per-run bookkeeping:
in-flight promises are identified by the `ℕ` id under which they were
created, `nextId` generates fresh ids, and `attempts` counts
`fetchGoogleMapsReviews` invocations (upstream resolution attempts). -/
structure DedupState where
  cache : List (String × ℕ)
  nextId : ℕ
  attempts : ℕ
deriving DecidableEq, Repr

/-- `reviewPromiseCache.get(key)`. -/
def promiseLookup (c : List (String × ℕ)) (k : String) : Option ℕ :=
  (c.find? fun p => p.1 == k).map (·.2)

/-- The `for (const key of reviewCacheKeys)` loop (scoreLeads.ts lines
312-320): first cache hit wins, in key order. -/
def findExisting (c : List (String × ℕ)) : List String → Option ℕ
  | [] => none
  | k :: rest =>
    match promiseLookup c k with
    | some pid => some pid
    | none => findExisting c rest

/-- One lead's synchronous check-then-register section (scoreLeads.ts lines
312-351): reuse an in-flight promise if any key hits, else create one fresh
promise (one upstream attempt) and register it under every key.  The source
has no `await` between the cache check and the `reviewPromiseCache.set`
calls, so on the single-threaded event loop the whole section is atomic and
concurrent leads interleave only at its granularity; `set` is modelled by
cons, which has the same `Map.get` lookup semantics (most recent binding
wins). -/
def processLeadLookup (st : DedupState) (keys : List String) : ℕ × DedupState :=
  match findExisting st.cache keys with
  | some pid => (pid, st)
  | none =>
    let pid := st.nextId
    let c2 := keys.foldl (fun c k => (k, pid) :: c) st.cache
    (pid, { cache := c2, nextId := st.nextId + 1, attempts := st.attempts + 1 })

theorem promiseLookup_foldl (pid : ℕ) (ka : List String) :
    ∀ (c0 : List (String × ℕ)) (k : String),
    promiseLookup (ka.foldl (fun c kk => (kk, pid) :: c) c0) k
      = if k ∈ ka then some pid else promiseLookup c0 k := by
  induction ka with
  | nil => intro c0 k; simp
  | cons a rest ih =>
    intro c0 k
    have hstep : promiseLookup ((a, pid) :: c0) k
        = if a == k then some pid else promiseLookup c0 k := by
      simp only [promiseLookup, List.find?_cons]
      cases hak : (a == k) <;> simp [hak]
    rw [List.foldl_cons, ih, hstep]
    by_cases hmem : k ∈ rest
    · simp [hmem]
    · by_cases hak : a = k
      · subst hak
        simp
      · simp [hmem, hak, Ne.symm hak]

theorem findExisting_eq_none (ks : List String) (c : List (String × ℕ))
    (h : ∀ k, k ∈ ks → promiseLookup c k = none) :
    findExisting c ks = none := by
  induction ks with
  | nil => rfl
  | cons k rest ih =>
    simp only [findExisting, h k (List.mem_cons_self k rest)]
    exact ih fun kk hk => h kk (List.mem_cons_of_mem k hk)

theorem findExisting_const (c : List (String × ℕ)) (pid : ℕ)
    (hval : ∀ k, promiseLookup c k = none ∨ promiseLookup c k = some pid)
    (ks : List String) (khit : String) (hmem : khit ∈ ks)
    (hhit : promiseLookup c khit ≠ none) :
    findExisting c ks = some pid := by
  induction ks with
  | nil => cases hmem
  | cons k rest ih =>
    simp only [findExisting]
    cases hlk : promiseLookup c k with
    | some v =>
      rcases hval k with hv | hv
      · rw [hlk] at hv
        exact Option.noConfusion hv
      · rw [hlk] at hv
        exact congrArg some (Option.some.inj hv)
    | none =>
      rcases List.mem_cons.mp hmem with rfl | hmem2
      · exact absurd hlk hhit
      · exact ih hmem2

/-- **C9.**  Two leads whose derived lookup keys (normalized maps URL,
normalized company name, or normalized query) overlap, processed
concurrently from an idle dedup cache, issue exactly one upstream
resolution attempt: the first lead registers its fresh in-flight promise
under all its keys, and the second lead's check finds a hit and reuses the
first lead's promise, registering nothing and issuing no second attempt. -/
theorem c9_inflight_dedup (urlNorm : String → String) (st : DedupState)
    (mapsA compA qryA mapsB compB qryB : Option String)
    (hempty : st.cache = [])
    (hoverlap : ∃ k, k ∈ leadLookupKeys urlNorm mapsB compB qryB
        ∧ k ∈ leadLookupKeys urlNorm mapsA compA qryA) :
    (processLeadLookup
        (processLeadLookup st (leadLookupKeys urlNorm mapsA compA qryA)).2
        (leadLookupKeys urlNorm mapsB compB qryB)).1
      = (processLeadLookup st (leadLookupKeys urlNorm mapsA compA qryA)).1
      ∧ (processLeadLookup
          (processLeadLookup st (leadLookupKeys urlNorm mapsA compA qryA)).2
          (leadLookupKeys urlNorm mapsB compB qryB)).2
        = (processLeadLookup st (leadLookupKeys urlNorm mapsA compA qryA)).2
      ∧ (processLeadLookup st (leadLookupKeys urlNorm mapsA compA qryA)).2.attempts
        = st.attempts + 1 := by
  obtain ⟨k0, hkb, hka⟩ := hoverlap
  have hfreshA : findExisting st.cache (leadLookupKeys urlNorm mapsA compA qryA)
      = none := by
    rw [hempty]
    exact findExisting_eq_none _ _ fun k _ => rfl
  have hA : processLeadLookup st (leadLookupKeys urlNorm mapsA compA qryA)
      = (st.nextId,
        { cache := (leadLookupKeys urlNorm mapsA compA qryA).foldl
            (fun c k => (k, st.nextId) :: c) st.cache
          nextId := st.nextId + 1, attempts := st.attempts + 1 }) := by
    simp only [processLeadLookup, hfreshA]
  have hlk : ∀ k, promiseLookup
      ((leadLookupKeys urlNorm mapsA compA qryA).foldl
        (fun c kk => (kk, st.nextId) :: c) st.cache) k
      = if k ∈ leadLookupKeys urlNorm mapsA compA qryA then some st.nextId
        else none := by
    intro k
    rw [promiseLookup_foldl, hempty]
    rfl
  have hfindB : findExisting
      ((leadLookupKeys urlNorm mapsA compA qryA).foldl
        (fun c kk => (kk, st.nextId) :: c) st.cache)
      (leadLookupKeys urlNorm mapsB compB qryB) = some st.nextId := by
    refine findExisting_const _ st.nextId ?_ _ k0 hkb ?_
    · intro k
      rw [hlk k]
      by_cases hk : k ∈ leadLookupKeys urlNorm mapsA compA qryA
      · rw [if_pos hk]
        exact Or.inr rfl
      · rw [if_neg hk]
        exact Or.inl rfl
    · rw [hlk k0, if_pos hka]
      exact Option.noConfusion
  have hB : processLeadLookup
      (processLeadLookup st (leadLookupKeys urlNorm mapsA compA qryA)).2
      (leadLookupKeys urlNorm mapsB compB qryB)
      = (st.nextId,
        (processLeadLookup st (leadLookupKeys urlNorm mapsA compA qryA)).2) := by
    rw [hA]
    simp only [processLeadLookup, hfindB]
  refine ⟨?_, ?_, ?_⟩
  · rw [hB, hA]
  · rw [hB]
  · rw [hA]

/-- Witness for C9: lead A carries a maps URL, company "Alpine Roofing" and
a query; lead B has no maps URL, company " ALPINE  ROOFING " (normalizing to
the same `company:alpine roofing` key) and a different query.  B reuses A's
promise, the cache is unchanged by B, and exactly one attempt was issued. -/
theorem c9_witness :
    (processLeadLookup
        (processLeadLookup ⟨[], 0, 0⟩
          (leadLookupKeys id (some "https://maps.example/x") (some "Alpine Roofing")
            (some "alpine roofing denver"))).2
        (leadLookupKeys id none (some " ALPINE  ROOFING ") (some "other query"))).1
      = (processLeadLookup ⟨[], 0, 0⟩
          (leadLookupKeys id (some "https://maps.example/x") (some "Alpine Roofing")
            (some "alpine roofing denver"))).1
      ∧ (processLeadLookup
          (processLeadLookup ⟨[], 0, 0⟩
            (leadLookupKeys id (some "https://maps.example/x") (some "Alpine Roofing")
              (some "alpine roofing denver"))).2
          (leadLookupKeys id none (some " ALPINE  ROOFING ") (some "other query"))).2
        = (processLeadLookup ⟨[], 0, 0⟩
            (leadLookupKeys id (some "https://maps.example/x") (some "Alpine Roofing")
              (some "alpine roofing denver"))).2
      ∧ (processLeadLookup ⟨[], 0, 0⟩
          (leadLookupKeys id (some "https://maps.example/x") (some "Alpine Roofing")
            (some "alpine roofing denver"))).2.attempts = 0 + 1 :=
  c9_inflight_dedup id ⟨[], 0, 0⟩ (some "https://maps.example/x")
    (some "Alpine Roofing") (some "alpine roofing denver")
    none (some " ALPINE  ROOFING ") (some "other query") rfl
    ⟨"company:alpine roofing", by decide, by decide⟩

end LeadScore
